import Mathlib

/-!
Verification of the pricewatch scraping engine: a shallow embedding of
`backend/scrapers/utils.py`, `backend/scrapers/base.py`,
`backend/scrapers/amazon.py` and `backend/scrapers/walmart.py`.

Modelling conventions:
* Python floats in this code are produced only by parsing decimal digit
  strings and compared against small constants, so they are modelled as
  exact rationals (`ℚ`).
* `float(str)` is modelled for the sign/digits/point forms that the code
  can feed it; exponent, `inf`/`nan` and underscore forms are not modelled.
* HTML documents are modelled at the BeautifulSoup-lookup level: a document
  is the record of what each `soup.find(...)` used by a parser returns.
* JSON-LD script blocks are modelled as the outcome of `json.loads`
  (a decode error, or a decoded Python value `PyVal`).
* Fallible Python code (AttributeError/TypeError escaping a parser) is
  modelled with `Except String`.
-/

namespace Pricewatch

/-- A Python value as produced by `json.loads`, plus `None`. Dicts are
key/value lists with distinct keys (as `json.loads` produces). -/
inductive PyVal where
  | pynone
  | pybool (b : Bool)
  | pynum (q : ℚ)
  | pystr (s : String)
  | pylist (xs : List PyVal)
  | pydict (kvs : List (String × PyVal))

def isWs (c : Char) : Bool := c.isWhitespace

/-- Python `str.strip()` on char lists. -/
def stripL (l : List Char) : List Char :=
  ((l.dropWhile isWs).reverse.dropWhile isWs).reverse

def digitsToNat (l : List Char) : Nat :=
  l.foldl (fun a c => a * 10 + (c.toNat - 48)) 0

/-- Value of a fractional digit block `d₁…dₖ` read after a decimal point. -/
def fracVal (l : List Char) : ℚ :=
  (digitsToNat l : ℚ) / ((10 : ℚ) ^ l.length)

def asciiLowerChar (c : Char) : Char :=
  if 'A' ≤ c && c ≤ 'Z' then Char.ofNat (c.toNat + 32) else c

/-- Python `str.lower()` (ASCII range; every string lowered by this code
within the claims is ASCII). -/
def asciiLower (s : String) : String := (s.toList.map asciiLowerChar).asString

/-- Python `s.replace(x, "")` for a single-char needle. -/
def removeChar (x : Char) (s : String) : String :=
  (s.toList.filter (fun c => c ≠ x)).asString

/-- Python substring test `needle in hay` on char lists. -/
def listIn (n : List Char) : List Char → Bool
  | [] => n.isEmpty
  | c :: t => n.isPrefixOf (c :: t) || listIn n t

/-- Python substring test `needle in hay`. -/
def strIn (needle hay : String) : Bool := listIn needle.toList hay.toList

/-- Unsigned part of Python `float(str)`: `digits[.digits]` or `.digits`. -/
def parseUnsigned (l : List Char) : Option ℚ :=
  let ip := l.takeWhile Char.isDigit
  match l.dropWhile Char.isDigit with
  | [] => if ip.isEmpty then none else some ((digitsToNat ip : ℚ))
  | '.' :: fr =>
    if fr.all Char.isDigit && !(ip.isEmpty && fr.isEmpty) then
      some ((digitsToNat ip : ℚ) + fracVal fr)
    else none
  | _ => none

/-- Python `float(str)` (decimal forms; no exponent/inf/nan). -/
def pyFloat (s : String) : Option ℚ :=
  match s.toList with
  | [] => none
  | '-' :: rest => (parseUnsigned rest).map (fun q => -q)
  | '+' :: rest => parseUnsigned rest
  | l => parseUnsigned l

/-- Python `int(str)`: optional sign followed by digits only. -/
def pyIntOfStr (s : String) : Option Int :=
  match s.toList with
  | [] => none
  | '-' :: rest =>
    if !rest.isEmpty && rest.all Char.isDigit then some (-(digitsToNat rest : Int)) else none
  | '+' :: rest =>
    if !rest.isEmpty && rest.all Char.isDigit then some ((digitsToNat rest : Int)) else none
  | l => if l.all Char.isDigit then some ((digitsToNat l : Int)) else none

/-- Python `int(float)`: truncation toward zero. -/
def ratTrunc (q : ℚ) : Int := if q < 0 then ⌈q⌉ else ⌊q⌋

/-! ### utils.extract_price -/

/-- The optional `(?:\.\d{2})?` tail of the price regex, after the digit run. -/
def matchFrac (w : Nat) : List Char → ℚ
  | '.' :: d1 :: d2 :: _ =>
    if d1.isDigit && d2.isDigit then
      (w : ℚ) + ((10 * (d1.toNat - 48) + (d2.toNat - 48) : Nat) : ℚ) / 100
    else (w : ℚ)
  | _ => (w : ℚ)

/-- `re.search(r"[\$£€]?(\d+(?:\.\d{2})?)", clean)` followed by `float` of
the captured group: scan left to right; a match starts at a digit, or at a
currency symbol immediately followed by a digit. -/
def priceSearch : List Char → Option ℚ
  | [] => none
  | c :: cs =>
    if c.isDigit then
      some (matchFrac (digitsToNat ((c :: cs).takeWhile Char.isDigit))
        ((c :: cs).dropWhile Char.isDigit))
    else if (c = '$' || c = '£' || c = '€') &&
        (match cs with | d :: _ => d.isDigit | [] => false) then
      some (matchFrac (digitsToNat (cs.takeWhile Char.isDigit)) (cs.dropWhile Char.isDigit))
    else priceSearch cs

/-- `text.strip().replace(",", "").replace(" ", "")` (single-char replaces
are removals, modelled by filters). -/
def cleanPrice (t : String) : List Char :=
  ((stripL t.toList).filter (fun c => c ≠ ',')).filter (fun c => c ≠ ' ')

/-- `utils.extract_price`. -/
def extract_price (t : String) : Option ℚ :=
  if t = "" then none else priceSearch (cleanPrice t)

/-! ### utils.extract_rating -/

/-- After the numeric group of the rating regex: `\s*(?:out of|/)\s*5`. -/
def checkSep (v : ℚ) (l : List Char) : Option ℚ :=
  let l1 := l.dropWhile isWs
  let afterSep : Option (List Char) :=
    if ("out of".toList).isPrefixOf l1 then some (l1.drop 6)
    else match l1 with
      | '/' :: r => some r
      | _ => none
  match afterSep with
  | some r =>
    match r.dropWhile isWs with
    | '5' :: _ => some v
    | _ => none
  | none => none

/-- Attempt of the rating regex at one position, digit run `whole` already
consumed: first with the optional `\.\d+` fraction, then without it. -/
def outOf5At (whole rest : List Char) : Option ℚ :=
  let withFrac : Option ℚ :=
    match rest with
    | '.' :: r2 =>
      let fr := r2.takeWhile Char.isDigit
      if fr.isEmpty then none
      else checkSep ((digitsToNat whole : ℚ) + fracVal fr) (r2.dropWhile Char.isDigit)
    | _ => none
  match withFrac with
  | some v => some v
  | none => checkSep ((digitsToNat whole : ℚ)) rest

/-- `re.search(r"(\d+(?:\.\d+)?)\s*(?:out of|/)\s*5", text.lower())`. -/
def outOf5Search : List Char → Option ℚ
  | [] => none
  | c :: cs =>
    if c.isDigit then
      match outOf5At ((c :: cs).takeWhile Char.isDigit) ((c :: cs).dropWhile Char.isDigit) with
      | some v => some v
      | none => outOf5Search cs
    else outOf5Search cs

/-- `re.search(r"^(\d+(?:\.\d+)?)\s*$", text.strip())` with `float` of the
group. -/
def barePattern (l : List Char) : Option ℚ :=
  let ip := l.takeWhile Char.isDigit
  if ip.isEmpty then none
  else match l.dropWhile Char.isDigit with
    | '.' :: r =>
      let fr := r.takeWhile Char.isDigit
      if !fr.isEmpty && (r.dropWhile Char.isDigit).all isWs then
        some ((digitsToNat ip : ℚ) + fracVal fr)
      else none
    | rest => if rest.all isWs then some ((digitsToNat ip : ℚ)) else none

/-- `utils.extract_rating`. -/
def extract_rating (t : String) : Option ℚ :=
  if t = "" then none
  else match outOf5Search (asciiLower t).toList with
    | some v => some v
    | none =>
      match barePattern (stripL t.toList) with
      | some v => if 0 ≤ v ∧ v ≤ 5 then some v else none
      | none => none

/-! ### utils.extract_review_count -/

/-- First maximal digit run found by `re.search(r"(\d+)", clean)`. -/
def firstDigitRun : List Char → Option (List Char)
  | [] => none
  | c :: cs => if c.isDigit then some ((c :: cs).takeWhile Char.isDigit) else firstDigitRun cs

/-- `utils.extract_review_count`. -/
def extract_review_count (t : String) : Option Int :=
  if t = "" then none
  else (firstDigitRun (t.toList.filter (fun c => c ≠ ',' && c ≠ '(' && c ≠ ')'))).map
    (fun l => (digitsToNat l : Int))

/-! ### utils.detect_platform and amazon._detect_currency -/

/-- `urlparse(url).netloc`: the host part of a URL with a scheme, up to the
first `/`, `?` or `#` (modelling the stdlib parser on well-formed URLs). -/
def netlocOf (s : String) : String :=
  let l := s.toList
  let schemeChar := fun c : Char => c.isAlpha || c.isDigit || c = '+' || c = '-' || c = '.'
  let rest :=
    match l.dropWhile (fun c => c ≠ ':') with
    | ':' :: r => if !(l.takeWhile (fun c => c ≠ ':')).isEmpty &&
        (l.takeWhile (fun c => c ≠ ':')).all schemeChar then r else l
    | _ => l
  match rest with
  | '/' :: '/' :: r => (r.takeWhile (fun c => c ≠ '/' && c ≠ '?' && c ≠ '#')).asString
  | _ => ""

def stripWww (d : String) : String :=
  if ("www.".toList).isPrefixOf d.toList then (d.toList.drop 4).asString else d

def amazonTldAlts : List String :=
  ["com", "co.uk", "de", "fr", "it", "es", "ca", "com.au", "in", "jp", "com.mx", "com.br"]

def ebayTldAlts : List String :=
  ["com", "co.uk", "de", "fr", "it", "es", "ca", "com.au"]

/-- `re.match(r"site\.(alt1|alt2|...)", domain)`: anchored at the start of
the domain, some alternative matching as a prefix of the remainder. -/
def matchDomainPrefix (site : String) (alts : List String) (domain : String) : Bool :=
  ((site ++ ".").toList).isPrefixOf domain.toList &&
    alts.any (fun t => t.toList.isPrefixOf (domain.toList.drop (site.length + 1)))

inductive Platform where
  | amazon | walmart | target | ebay | unknown
  deriving DecidableEq, Repr

/-- `utils.detect_platform`. -/
def detect_platform (url : String) : Platform :=
  let domain := stripWww (netlocOf (asciiLower url))
  if matchDomainPrefix "amazon" amazonTldAlts domain then .amazon
  else if strIn "walmart.com" domain then .walmart
  else if strIn "target.com" domain then .target
  else if matchDomainPrefix "ebay" ebayTldAlts domain then .ebay
  else .unknown

/-- `AmazonScraper._detect_currency`: ordered substring tests on the
lowercased URL. -/
def detect_currency (url : String) : String :=
  let u := asciiLower url
  if strIn "amazon.in" u then "INR"
  else if strIn "amazon.co.uk" u then "GBP"
  else if strIn "amazon.de" u || strIn "amazon.fr" u || strIn "amazon.it" u ||
    strIn "amazon.es" u then "EUR"
  else if strIn "amazon.ca" u then "CAD"
  else if strIn "amazon.com.au" u then "AUD"
  else if strIn "amazon.co.jp" u then "JPY"
  else if strIn "amazon.com.mx" u then "MXN"
  else if strIn "amazon.com.br" u then "BRL"
  else "USD"

/-! ### base.ScrapeResult and the fetch pipeline -/

inductive ScrapeStatus where
  | success | failed | blocked | timeout
  deriving DecidableEq, Repr

structure ScrapeResult where
  success : Bool
  platform : Platform
  name : Option PyVal := none
  current_price : Option ℚ := none
  currency : PyVal := .pystr "USD"
  in_stock : Bool := true
  image_url : Option PyVal := none
  rating : Option ℚ := none
  review_count : Option Int := none
  seller_name : Option PyVal := none
  response_time_ms : Nat := 0
  status : ScrapeStatus := .success
  error_message : Option String := none
  http_status_code : Option Nat := none

/-- Outcome of one `client.get(url)` call in `_fetch_with_retry`. -/
inductive FetchOutcome where
  | response (status : Nat) (body : String)
  | timeoutExn
  | connectExn (msg : String)
  | otherExn (msg : String)

/-- Return value of `_fetch_with_retry`, instrumented with the number of
network calls made and of backoff sleeps performed. -/
structure FetchResult where
  content : Option String
  httpStatus : Nat
  error : Option String
  calls : Nat
  backoffSleeps : Nat

def httpErrMsg (st : Nat) : String :=
  if st = 403 then "Access forbidden - likely blocked"
  else if st = 404 then "Product not found"
  else if st = 503 then "Service unavailable - anti-bot triggered"
  else "HTTP " ++ toString st

/-- The retry loop of `_fetch_with_retry`: `n` iterations left out of
`total`, carrying `http_status` and `last_error`. On 200 return the body; on
404 break (no backoff sleep); otherwise record the error, sleep unless this
was the last attempt, and continue. Exceptions leave `http_status` as is. -/
def fetchRetryAux (outcomes : Nat → FetchOutcome) (total : Nat) :
    Nat → Nat → Option String → Nat → Nat → FetchResult
  | 0, hs, le, c, s => ⟨none, hs, le, c, s⟩
  | n + 1, hs, _le, c, s =>
    let attempt := total - (n + 1)
    let s1 := if attempt < total - 1 then s + 1 else s
    match outcomes attempt with
    | .response st body =>
      if st = 200 then ⟨some body, st, none, c + 1, s⟩
      else if st = 404 then ⟨none, st, some (httpErrMsg st), c + 1, s⟩
      else fetchRetryAux outcomes total n st (some (httpErrMsg st)) (c + 1) s1
    | .timeoutExn => fetchRetryAux outcomes total n hs (some "Request timeout") (c + 1) s1
    | .connectExn m =>
      fetchRetryAux outcomes total n hs (some ("Connection error: " ++ m)) (c + 1) s1
    | .otherExn m =>
      fetchRetryAux outcomes total n hs (some ("Unexpected error: " ++ m)) (c + 1) s1

/-- `_fetch_with_retry`; `max_retries or settings.scrape_retry_count` uses
the settings value when the argument is `None` or `0` (falsy). -/
def fetch_with_retry (outcomes : Nat → FetchOutcome) (maxRetriesArg : Option Nat)
    (settingsRetryCount : Nat) : FetchResult :=
  let total := match maxRetriesArg with
    | Option.none => settingsRetryCount
    | some 0 => settingsRetryCount
    | some k => k
  fetchRetryAux outcomes total total 0 none 0 0

/-- Outcome of the Web Unlocker POST in `_fetch_with_web_unlocker`. -/
inductive UnlockerOutcome where
  | response (status : Nat) (body : String)
  | exn (msg : String)

/-- `_fetch_with_web_unlocker`. -/
def fetch_with_web_unlocker (tokenConfigured : Bool) (outcome : UnlockerOutcome) :
    Option String × Nat × Option String :=
  if !tokenConfigured then (none, 0, some "Web Unlocker token not configured")
  else match outcome with
    | .response st body =>
      if st = 200 then (some body, 200, none)
      else (none, st, some ("Web Unlocker returned " ++ toString st))
    | .exn m => (none, 0, some ("Web Unlocker error: " ++ m))

/-- Everything `BaseScraper.scrape` consumes from its environment: the
network outcomes, the settings, the unlocker, and the platform parser. -/
structure ScrapeEnv where
  outcomes : Nat → FetchOutcome
  retryCount : Nat
  tokenConfigured : Bool
  unlocker : UnlockerOutcome
  parse : String → Except String ScrapeResult
  platform : Platform
  responseTimeMs : Nat

def primaryResult (env : ScrapeEnv) : FetchResult :=
  fetch_with_retry env.outcomes none env.retryCount

/-- `html is None and http_status in (403, 503, 0)`. -/
def usesFallback (env : ScrapeEnv) : Bool :=
  (primaryResult env).content.isNone &&
    ((primaryResult env).httpStatus == 403 || (primaryResult env).httpStatus == 503 ||
      (primaryResult env).httpStatus == 0)

/-- The `(html, http_status, error)` triple after the primary fetch and the
optional fallback (which overwrites all three). -/
def fetched (env : ScrapeEnv) : Option String × Nat × Option String :=
  if usesFallback env then fetch_with_web_unlocker env.tokenConfigured env.unlocker
  else ((primaryResult env).content, (primaryResult env).httpStatus, (primaryResult env).error)

/-- `"timeout" in (error or "").lower()`. -/
def timeoutText (err : Option String) : Bool := strIn "timeout" (asciiLower (err.getD ""))

/-- `BaseScraper.scrape`. -/
def scrape (env : ScrapeEnv) : ScrapeResult :=
  match fetched env with
  | (Option.none, hs, err) =>
    let st0 : ScrapeStatus := if timeoutText err then .timeout else .failed
    let st : ScrapeStatus := if hs == 403 || hs == 503 then .blocked else st0
    { success := false, platform := env.platform, status := st, error_message := err,
      http_status_code := some hs, response_time_ms := env.responseTimeMs }
  | (some html, hs, _) =>
    match env.parse html with
    | .ok r => { r with response_time_ms := env.responseTimeMs, http_status_code := some hs }
    | .error e =>
      { success := false, platform := env.platform, status := .failed,
        error_message := some ("Parse error: " ++ e),
        http_status_code := some hs, response_time_ms := env.responseTimeMs }

/-! ### AmazonScraper.parse

An `AmazonDoc` records what each BeautifulSoup lookup used by the Amazon
parser returns on the page: `none` when the element is absent, otherwise
the element's (stripped) text or attribute. -/

structure AmazonDoc where
  productTitle : Option String
  h1Title : Option String
  metaTitleContent : Option (Option String)
  aPriceWhole : Option String
  aPriceFraction : Option String
  corePriceOffscreen : Option (Option String)
  priceblockOurprice : Option String
  priceblockDealprice : Option String
  kindlePrice : Option String
  availabilityText : Option String
  addToCartInput : Bool
  aIconAlt : Option String
  avgReviewsIconAlt : Option (Option String)
  acrReviewText : Option String
  acrReviewLink : Option String
  sellerProfileText : Option String
  merchantInfoText : Option String
  landingImageSrc : Option (Option String)
  imgWrapperImgSrc : Option (Option (Option String))

/-- `AmazonScraper._extract_name`. -/
def amazonName (d : AmazonDoc) : Option String :=
  match d.productTitle with
  | some t => some t
  | none =>
    match d.h1Title with
    | some t => some t
    | none =>
      match d.metaTitleContent with
      | some (some c) => if c ≠ "" then some c else none
      | _ => none

/-- `AmazonScraper._extract_price`. The whole+fraction candidate falls
through on `float` failure; each `extract_price` candidate, once its element
is found, is returned directly (even when it is `None`). -/
def amazonPrice (d : AmazonDoc) : Option ℚ :=
  let step1 : Option ℚ :=
    match d.aPriceWhole with
    | some t =>
      let whole := removeChar '.' (removeChar ',' t)
      let fraction := d.aPriceFraction.getD "00"
      pyFloat (whole ++ "." ++ fraction)
    | none => none
  match step1 with
  | some v => some v
  | none =>
    match d.corePriceOffscreen with
    | some (some txt) => extract_price txt
    | _ =>
      match d.priceblockOurprice with
      | some txt => extract_price txt
      | none =>
        match d.priceblockDealprice with
        | some txt => extract_price txt
        | none =>
          match d.kindlePrice with
          | some txt => extract_price txt
          | none => none

/-- `AmazonScraper._check_availability`. -/
def amazonInStock (d : AmazonDoc) : Bool :=
  match d.availabilityText with
  | some t =>
    let tl := asciiLower t
    if strIn "in stock" tl then true
    else if strIn "out of stock" tl || strIn "currently unavailable" tl then false
    else if d.addToCartInput then true else true
  | none => if d.addToCartInput then true else true

/-- `AmazonScraper._extract_rating`. -/
def amazonRating (d : AmazonDoc) : Option ℚ :=
  match d.aIconAlt with
  | some t => extract_rating t
  | none =>
    match d.avgReviewsIconAlt with
    | some (some t) => extract_rating t
    | _ => none

/-- `AmazonScraper._extract_review_count`. -/
def amazonReviewCount (d : AmazonDoc) : Option Int :=
  match d.acrReviewText with
  | some t => extract_review_count t
  | none =>
    match d.acrReviewLink with
    | some t => extract_review_count t
    | none => none

/-- `AmazonScraper._extract_seller`. -/
def amazonSeller (d : AmazonDoc) : Option String :=
  match d.sellerProfileText with
  | some t => some t
  | none =>
    match d.merchantInfoText with
    | some t => if strIn "Amazon" t then some "Amazon" else some ((t.toList.take 100).asString)
    | none => none

/-- `AmazonScraper._extract_image`. -/
def amazonImage (d : AmazonDoc) : Option String :=
  let first : Option String :=
    match d.landingImageSrc with
    | some (some src) => if src ≠ "" then some src else none
    | _ => none
  match first with
  | some s => some s
  | none =>
    match d.imgWrapperImgSrc with
    | some (some (some src)) => if src ≠ "" then some src else none
    | _ => none

/-- `AmazonScraper.parse`. -/
def amazonParse (d : AmazonDoc) (url : String) : ScrapeResult :=
  let currency := detect_currency url
  let name := amazonName d
  let price := amazonPrice d
  let success := name.isSome && price.isSome
  { success := success
    platform := .amazon
    name := name.map .pystr
    current_price := price
    currency := .pystr currency
    in_stock := amazonInStock d
    image_url := (amazonImage d).map .pystr
    rating := amazonRating d
    review_count := amazonReviewCount d
    seller_name := (amazonSeller d).map .pystr
    status := if success then .success else .failed
    error_message := if success then none else some "Could not extract product data" }

/-! ### WalmartScraper.parse

The JSON-LD path manipulates decoded Python values dynamically; `.get` on a
non-dict, `.lower()` on a non-string, and `in` on a non-container raise
`AttributeError`/`TypeError`, modelled as `Except.error`. -/

def pyTruthy : PyVal → Bool
  | .pynone => false
  | .pybool b => b
  | .pynum q => decide (q ≠ 0)
  | .pystr s => s ≠ ""
  | .pylist xs => !xs.isEmpty
  | .pydict kvs => !kvs.isEmpty

def dget (kvs : List (String × PyVal)) (k : String) : Option PyVal :=
  (kvs.find? (fun p => p.1 == k)).map (fun p => p.2)

/-- Python `v.get(k, dflt)`: raises `AttributeError` unless `v` is a dict. -/
def pyGet (v : PyVal) (k : String) (dflt : PyVal) : Except String PyVal :=
  match v with
  | .pydict kvs => .ok ((dget kvs k).getD dflt)
  | _ => .error "object has no attribute get"

/-- Python `float(v)` with `ValueError`/`TypeError` mapped to `none`
(both are caught wherever this is used). -/
def pyFloatOf : PyVal → Option ℚ
  | .pynum q => some q
  | .pybool b => some (if b then 1 else 0)
  | .pystr s => pyFloat s
  | _ => none

/-- Python `int(v)` with `ValueError`/`TypeError` mapped to `none`. -/
def pyIntOf : PyVal → Option Int
  | .pynum q => some (ratTrunc q)
  | .pybool b => some (if b then 1 else 0)
  | .pystr s => pyIntOfStr s
  | _ => none

/-- Fractional digits of Python's float printing, up to 17 places
(approximate; only feeds the `str()` fallback below). -/
def decFracDigits : Nat → ℚ → String
  | 0, _ => ""
  | n + 1, f =>
    if f = 0 then ""
    else toString ⌊f * 10⌋ ++ decFracDigits n (f * 10 - (⌊f * 10⌋ : ℚ))

/-- Python's number printing (approximate; only feeds the `str()` fallback). -/
def ratRepr (q : ℚ) : String :=
  let sign := if q < 0 then "-" else ""
  let a := |q|
  let ip : Int := ⌊a⌋
  let fr := a - (ip : ℚ)
  if fr = 0 then sign ++ toString ip
  else sign ++ toString ip ++ "." ++ decFracDigits 17 fr

/-- Python `repr`, fuelled on nesting depth (only feeds the `str()`
fallback in the Walmart price path). -/
def pyReprF : Nat → PyVal → String
  | 0, _ => ""
  | _ + 1, .pynone => "None"
  | _ + 1, .pybool b => if b then "True" else "False"
  | _ + 1, .pynum q => ratRepr q
  | _ + 1, .pystr s =>
    let q39 := String.mk [Char.ofNat 39]
    q39 ++ s ++ q39
  | n + 1, .pylist xs => "[" ++ String.intercalate ", " (xs.map (pyReprF n)) ++ "]"
  | n + 1, .pydict kvs =>
    let q39 := String.mk [Char.ofNat 39]
    "\x7b" ++
      String.intercalate ", "
        (kvs.map (fun p => q39 ++ p.1 ++ q39 ++ ": " ++ pyReprF n p.2)) ++ "\x7d"

/-- Python `str(v)`. -/
def pyStr (v : PyVal) : String :=
  match v with
  | .pystr s => s
  | v => pyReprF 32 v

/-- `"InStock" in availability or "instock" in availability.lower()`:
membership then `.lower()`, with Python's dynamic failure modes. -/
def availInStock : PyVal → Except String Bool
  | .pystr s => .ok (strIn "InStock" s || strIn "instock" (asciiLower s))
  | .pylist xs =>
    if xs.any (fun v => match v with | .pystr s => s == "InStock" | _ => false) then .ok true
    else .error "object has no attribute lower"
  | .pydict kvs =>
    if (dget kvs "InStock").isSome then .ok true
    else .error "object has no attribute lower"
  | _ => .error "argument not iterable"

structure PriceEl where
  content : Option String
  text : String

/-- A `WalmartDoc` records the outcome of each BeautifulSoup lookup used by
the Walmart parser; `jsonLdBlocks` is the list of `json.loads` outcomes of
the page's `application/ld+json` scripts (`Except.error` for a decode
error or a `None` script body, both caught). -/
structure WalmartDoc where
  jsonLdBlocks : List (Except Unit PyVal)
  itempropName : Option String
  testidTitle : Option String
  firstH1 : Option String
  itempropPrice : Option PriceEl
  priceWrapSpan : Option (Option String)
  spanTexts : List String
  oosTextFound : Bool
  addToCartBtn : Bool
  ratingItemprop : Option (Option String)
  ratingSpanText : Option String
  countItemprop : Option (Option String)
  reviewsLinkText : Option String
  sellerSoldBy : Option String
  heroImgSrc : Option (Option String)
  itempropImgSrc : Option (Option String)
  imgSrcs : List String

def typeIsProduct (v : PyVal) : Bool :=
  match v with | .pystr s => s == "Product" | _ => false

/-- The inner loop of `_extract_json_ld` over an array-form schema:
`item.get` raises on a non-dict item. -/
def findProduct : List PyVal → Except String (Option PyVal)
  | [] => .ok none
  | .pydict kvs :: rest =>
    if typeIsProduct ((dget kvs "@type").getD .pynone) then .ok (some (.pydict kvs))
    else findProduct rest
  | _ :: _ => .error "object has no attribute get"

/-- `WalmartScraper._extract_json_ld`. A list block with no Product entry
falls through to `data.get("@type")`, and a list has no `.get` — so it
raises; likewise any block that is neither dict nor list. -/
def extract_json_ld : List (Except Unit PyVal) → Except String (Option PyVal)
  | [] => .ok none
  | .error _ :: rest => extract_json_ld rest
  | .ok data :: rest =>
    match data with
    | .pylist items =>
      (match findProduct items with
       | .error e => .error e
       | .ok (some item) => .ok (some item)
       | .ok none => .error "object has no attribute get")
    | .pydict kvs =>
      if typeIsProduct ((dget kvs "@type").getD .pynone) then .ok (some data)
      else extract_json_ld rest
    | _ => .error "object has no attribute get"

/-- `x if x is not None else None` as an `Option`. -/
def optOf (v : PyVal) : Option PyVal :=
  match v with | .pynone => none | v => some v

/-- `offers = offers[0] if offers else {}` applied when `offers` is a list. -/
def offersUnwrap : PyVal → PyVal
  | .pylist (x :: _) => x
  | .pylist [] => .pydict []
  | v => v

/-- The price/currency/stock stage of `_parse_from_json` (the body of
`if offers:`). -/
def offersStage (offers : PyVal) : Except String (Option ℚ × PyVal × Bool) :=
  if pyTruthy offers then
    match pyGet offers "price" .pynone with
    | .error e => .error e
    | .ok priceStr =>
      let price := if pyTruthy priceStr then
          match pyFloatOf priceStr with
          | some q => some q
          | none => extract_price (pyStr priceStr)
        else none
      match pyGet offers "priceCurrency" (.pystr "USD") with
      | .error e => .error e
      | .ok currency =>
        match pyGet offers "availability" (.pystr "") with
        | .error e => .error e
        | .ok avail =>
          match availInStock avail with
          | .error e => .error e
          | .ok inStock => .ok (price, currency, inStock)
  else .ok (none, .pystr "USD", true)

/-- The rating/review-count stage of `_parse_from_json` (the body of
`if aggregate_rating:`, two separate try blocks with caught
ValueError/TypeError). -/
def aggStage (agg : PyVal) : Except String (Option ℚ × Option Int) :=
  if pyTruthy agg then
    match pyGet agg "ratingValue" (.pynum 0) with
    | .error e => .error e
    | .ok rv =>
      match pyGet agg "reviewCount" (.pynum 0) with
      | .error e => .error e
      | .ok rc => .ok (pyFloatOf rv, pyIntOf rc)
  else .ok (none, none)

/-- `WalmartScraper._parse_from_json` (the seller always comes from the
HTML, passed in as `sellerHtml`). -/
def parse_from_json (data : PyVal) (sellerHtml : Option String) :
    Except String ScrapeResult :=
  match pyGet data "name" .pynone with
  | .error e => .error e
  | .ok name =>
    match pyGet data "offers" (.pydict []) with
    | .error e => .error e
    | .ok offers0 =>
      match offersStage (offersUnwrap offers0) with
      | .error e => .error e
      | .ok (price, currency, in_stock) =>
        match pyGet data "aggregateRating" (.pydict []) with
        | .error e => .error e
        | .ok agg =>
          match aggStage agg with
          | .error e => .error e
          | .ok (rating, review_count) =>
            match pyGet data "image" .pynone with
            | .error e => .error e
            | .ok images =>
              let image_url : Option PyVal := match images with
                | .pylist (x :: _) => some x
                | .pystr s => some (.pystr s)
                | _ => none
              let success := (optOf name).isSome && price.isSome
              .ok { success := success
                    platform := .walmart
                    name := optOf name
                    current_price := price
                    currency := currency
                    in_stock := in_stock
                    image_url := image_url
                    rating := rating
                    review_count := review_count
                    seller_name := sellerHtml.map .pystr
                    status := if success then .success else .failed
                    error_message :=
                      if success then none else some "Could not extract product data" }

/-- `WalmartScraper._extract_name_html`. -/
def walmartNameHtml (d : WalmartDoc) : Option String :=
  match d.itempropName with
  | some t => some t
  | none =>
    match d.testidTitle with
    | some t => some t
    | none => d.firstH1

/-- The generic dollar-span scan at the end of `_extract_price_html`. -/
def scanSpans : List String → Option ℚ
  | [] => none
  | t :: rest =>
    if ("$".toList).isPrefixOf t.toList && t.length < 20 then
      match extract_price t with
      | some p => if 0 < p then some p else scanSpans rest
      | none => scanSpans rest
    else scanSpans rest

/-- `WalmartScraper._extract_price_html`. -/
def walmartPriceHtml (d : WalmartDoc) : Option ℚ :=
  match d.itempropPrice with
  | some el =>
    (match el.content with
     | some c =>
       if c ≠ "" then
         match pyFloat c with
         | some v => some v
         | none => extract_price el.text
       else extract_price el.text
     | none => extract_price el.text)
  | none =>
    match d.priceWrapSpan with
    | some (some t) => extract_price t
    | _ => scanSpans d.spanTexts

/-- `WalmartScraper._check_availability_html`. -/
def walmartInStockHtml (d : WalmartDoc) : Bool :=
  if d.oosTextFound then false
  else if d.addToCartBtn then true
  else true

/-- `re.search(r"(\d+(?:\.\d+)?)", text)` with `float` of the group. -/
def firstDecimal : List Char → Option ℚ
  | [] => none
  | c :: cs =>
    if c.isDigit then
      let whole := (c :: cs).takeWhile Char.isDigit
      some (match (c :: cs).dropWhile Char.isDigit with
        | '.' :: r =>
          let fr := r.takeWhile Char.isDigit
          if fr.isEmpty then ((digitsToNat whole : ℚ))
          else ((digitsToNat whole : ℚ) + fracVal fr)
        | _ => ((digitsToNat whole : ℚ)))
    else firstDecimal cs

/-- `WalmartScraper._extract_rating_html`. -/
def walmartRatingHtml (d : WalmartDoc) : Option ℚ :=
  let step1 : Option ℚ :=
    match d.ratingItemprop with
    | some (some c) => if c ≠ "" then pyFloat c else none
    | _ => none
  match step1 with
  | some v => some v
  | none =>
    match d.ratingSpanText with
    | some t => firstDecimal t.toList
    | none => none

/-- `WalmartScraper._extract_review_count_html`. -/
def walmartReviewCountHtml (d : WalmartDoc) : Option Int :=
  let step1 : Option Int :=
    match d.countItemprop with
    | some (some c) => if c ≠ "" then pyIntOfStr c else none
    | _ => none
  match step1 with
  | some v => some v
  | none =>
    match d.reviewsLinkText with
    | some t =>
      match firstDigitRun (t.toList.filter (fun c => c ≠ ',')) with
      | some run => some ((digitsToNat run : Int))
      | none => none
    | none => none

def findLargeImg : List String → Option String
  | [] => none
  | s :: rest =>
    let sl := asciiLower s
    if strIn "product" sl && (strIn "large" sl || strIn "xlarge" sl) then some s
    else findLargeImg rest

/-- `WalmartScraper._extract_image_html`. -/
def walmartImageHtml (d : WalmartDoc) : Option String :=
  let h : Option String :=
    match d.heroImgSrc with
    | some (some s) => if s ≠ "" then some s else none
    | _ => none
  match h with
  | some s => some s
  | none =>
    let i : Option String :=
      match d.itempropImgSrc with
      | some (some s) => if s ≠ "" then some s else none
      | _ => none
    match i with
    | some s => some s
    | none => findLargeImg d.imgSrcs

/-- `WalmartScraper._parse_from_html`. -/
def parse_from_html (d : WalmartDoc) : ScrapeResult :=
  let name := walmartNameHtml d
  let price := walmartPriceHtml d
  let success := name.isSome && price.isSome
  { success := success
    platform := .walmart
    name := name.map .pystr
    current_price := price
    currency := .pystr "USD"
    in_stock := walmartInStockHtml d
    image_url := (walmartImageHtml d).map .pystr
    rating := walmartRatingHtml d
    review_count := walmartReviewCountHtml d
    seller_name := d.sellerSoldBy.map .pystr
    status := if success then .success else .failed
    error_message := if success then none else some "Could not extract product data from HTML" }

/-- `WalmartScraper.parse`: JSON-LD schema preferred, HTML fallback. -/
def walmartParse (d : WalmartDoc) : Except String ScrapeResult :=
  match extract_json_ld d.jsonLdBlocks with
  | .error e => .error e
  | .ok (some data) => parse_from_json data d.sellerSoldBy
  | .ok none => .ok (parse_from_html d)

/-- Modelled from the spec's classification sentence, in the spec's order:
"if fallback also fails and the accumulated error text mentions timeout,
classify Timeout; else if the last HTTP status was 403 or 503, classify
Blocked; else Failed". Comparator for the refinement claim about the final
failure status. -/
def specFinalStatus (err : Option String) (hs : Nat) : ScrapeStatus :=
  if timeoutText err then .timeout
  else if hs == 403 || hs == 503 then .blocked
  else .failed

/-! ## Concrete documents and environments used by counterexamples and
witnesses -/

/-- A Walmart page on which every HTML lookup comes up empty, with the
given JSON-LD blocks. -/
def wdocOf (blocks : List (Except Unit PyVal)) : WalmartDoc :=
  ⟨blocks, none, none, none, none, none, [], false, false, none, none, none, none,
    none, none, none, []⟩

/-- Every attempt replies 404. -/
def c4env : ScrapeEnv :=
  ⟨fun _ => .response 404 "nf", 3, true, .response 200 "", fun _ => .error "", .amazon, 0⟩

/-- Every attempt times out and no unlocker token is configured. -/
def c2env : ScrapeEnv :=
  ⟨fun _ => .timeoutExn, 3, false, .response 200 "", fun _ => .error "", .walmart, 0⟩

/-- Every attempt is blocked with 403 and no unlocker token is configured. -/
def c1env : ScrapeEnv :=
  ⟨fun _ => .response 403 "", 3, false, .response 200 "", fun _ => .error "", .amazon, 0⟩

/-- Every attempt is blocked with 403; the unlocker replies 500. -/
def c1envB : ScrapeEnv :=
  ⟨fun _ => .response 403 "", 3, true, .response 500 "", fun _ => .error "", .amazon, 0⟩

/-- Product schema with an empty name and a negative price string. -/
def c3data : PyVal :=
  .pydict [("@type", .pystr "Product"), ("name", .pystr ""),
    ("offers", .pydict [("price", .pystr "-1")])]

/-- Amazon page: no whole/fraction pair, an unparsable core price, and a
parsable legacy price block. -/
def c7doc : AmazonDoc :=
  ⟨some "T", none, none, none, none, some (some "abc"), some "$5", none, none,
    none, false, none, none, none, none, none, none, none, none⟩

/-- Amazon page whose review-icon text claims 9.9 out of 5. -/
def c9doc : AmazonDoc :=
  ⟨some "T", none, none, none, none, none, none, none, none,
    none, false, some "9.9 out of 5 stars", none, none, none, none, none, none, none⟩

/-- Product schema whose aggregateRating object is present but empty. -/
def c10data : PyVal :=
  .pydict [("@type", .pystr "Product"), ("name", .pystr "X"),
    ("offers", .pydict [("price", .pystr "9.99")]), ("aggregateRating", .pydict [])]

/-- A concrete successful parse result. -/
def c3wres : ScrapeResult :=
  { success := true, platform := .walmart, name := some (.pystr "Widget"),
    current_price := some 10, status := .success }

/-- Environment whose fetch succeeds and whose parser returns the
successful result `c3wres`. -/
def c3wenv : ScrapeEnv :=
  ⟨fun _ => .response 200 "page", 3, false, .response 200 "",
    fun _ => .ok c3wres, .walmart, 0⟩

/-- Well-typedness of the (unwrapped) offers value: a dict whose
availability entry, when present, is a string — or any falsy value (the
`if offers:` guard then skips the block). Sufficient for
`offersStage` not to raise. -/
def OffersValOK : PyVal → Prop
  | .pydict okvs => ∀ a, dget okvs "availability" = some a → ∃ s, a = .pystr s
  | w => pyTruthy w = false

/-- Well-typedness of the `offers` entry of a Product schema. -/
def OffersOK : Option PyVal → Prop
  | none => True
  | some v => OffersValOK (offersUnwrap v)

/-- Well-typedness of the `aggregateRating` entry: an object, falsy, or
absent. -/
def AggOK : Option PyVal → Prop
  | none => True
  | some v => (∃ kvs, v = .pydict kvs) ∨ pyTruthy v = false

/-- Well-typedness of a Product schema object for `_parse_from_json`. -/
def ProductOK (kvs : List (String × PyVal)) : Prop :=
  OffersOK (dget kvs "offers") ∧ AggOK (dget kvs "aggregateRating")

/-- Well-typedness of one JSON-LD block: a decode failure (caught), or an
object whose Product fields are well-typed. -/
def BlockOK : Except Unit PyVal → Prop
  | .error _ => True
  | .ok v => ∃ kvs, v = .pydict kvs ∧ ProductOK kvs

/-- The success invariant of claim C3 as the code maintains it: a
successful result has status Success and both a name and a price present. -/
def SuccessInv (r : ScrapeResult) : Prop :=
  r.success = true →
    r.status = ScrapeStatus.success ∧ r.name.isSome = true ∧ r.current_price.isSome = true

/-- Well-typed Product schema used by the C5 witness. -/
def c5data : List (String × PyVal) :=
  [("@type", .pystr "Product"), ("name", .pystr "Widget"),
    ("offers", .pydict [("price", .pystr "129.99"), ("priceCurrency", .pystr "USD"),
      ("availability", .pystr "http://schema.org/InStock")])]

/-- Environment whose fetch succeeds and whose parser raises. -/
def c5wenv : ScrapeEnv :=
  ⟨fun _ => .response 200 "page", 3, false, .response 200 "",
    fun _ => .error "boom", .walmart, 9⟩

/-- Amazon page with a whole/fraction pair "5" / missing (default "00"). -/
def c7wdoc1 : AmazonDoc :=
  ⟨some "T", none, none, some "5", none, some (some "$9"), some "$7", none, none,
    none, false, none, none, none, none, none, none, none, none⟩

/-- Amazon page with no whole/fraction pair, a core price "$9", and a later
legacy block "$7". -/
def c7wdoc2 : AmazonDoc :=
  ⟨some "T", none, none, none, none, some (some "$9"), some "$7", none, none,
    none, false, none, none, none, none, none, none, none, none⟩

/-- Amazon page where the core div is present but without the offscreen
span, the first legacy block holds unparsable text, and the deal block
holds a parsable price. -/
def c7wdoc3 : AmazonDoc :=
  ⟨some "T", none, none, none, none, some none, some "abc", some "$8", none,
    none, false, none, none, none, none, none, none, none, none⟩

/-- Amazon page where only the deal-price block is present. -/
def c7wdoc4 : AmazonDoc :=
  ⟨some "T", none, none, none, none, none, none, some "$8", none,
    none, false, none, none, none, none, none, none, none, none⟩

/-- Amazon page where only the kindle-price block is present. -/
def c7wdoc5 : AmazonDoc :=
  ⟨some "T", none, none, none, none, none, none, none, some "$3",
    none, false, none, none, none, none, none, none, none, none⟩

/-- The whole/fraction candidate of `_extract_price` yields no value: the
pair element is absent, or its composed string fails `float`. -/
def WholeFracFails (d : AmazonDoc) : Prop :=
  d.aPriceWhole = none ∨
    ∃ t, d.aPriceWhole = some t ∧
      pyFloat ((removeChar '.' (removeChar ',' t)) ++ "." ++ d.aPriceFraction.getD "00") = none

/-- The core price candidate yields no element: the div is absent, or it
contains no offscreen span. -/
def CoreAbsent (d : AmazonDoc) : Prop :=
  d.corePriceOffscreen = none ∨ d.corePriceOffscreen = some none

/-- Value of the optional two-decimal fraction of the claimed price form. -/
def fracOf : List Char → ℚ
  | ['.', d1, d2] => ((10 * (d1.toNat - 48) + (d2.toNat - 48) : Nat) : ℚ) / 100
  | _ => 0

/-- The claimed input form of C8: an optional `$`/`£`/`€` symbol, then
thousands-separated digits, then an optional 2-decimal fraction; the
associated numeric value reads the digits (separators dropped) plus the
fraction. -/
def PriceShaped (t : String) (v : ℚ) : Prop :=
  ∃ symL g f : List Char,
    (symL = [] ∨ symL = ['$'] ∨ symL = ['£'] ∨ symL = ['€']) ∧
    g ≠ [] ∧ (∀ c ∈ g, c.isDigit = true ∨ c = ',') ∧ (∃ c ∈ g, c.isDigit = true) ∧
    (f = [] ∨ ∃ d1 d2, d1.isDigit = true ∧ d2.isDigit = true ∧ f = ['.', d1, d2]) ∧
    t.toList = symL ++ g ++ f ∧
    v = (digitsToNat (g.filter (fun c => c.isDigit)) : ℚ) + fracOf f

/-- Amazon page whose review-icon text reads "4 out of 5 stars". -/
def c9wdoc : AmazonDoc :=
  ⟨some "T", none, none, none, none, none, none, none, none,
    none, false, some "4 out of 5 stars", none, none, none, none, none, none, none⟩

/-- Product schema (as key/value list) with a non-empty aggregateRating
object lacking both ratingValue and reviewCount. -/
def c10wds1 : List (String × PyVal) :=
  [("name", .pystr "X"), ("offers", .pydict [("price", .pystr "9.99")]),
    ("aggregateRating", .pydict [("worstRating", .pynum 1)])]

/-- Product schema (as key/value list) with no aggregateRating at all. -/
def c10wds2 : List (String × PyVal) :=
  [("name", .pystr "X"), ("offers", .pydict [("price", .pystr "9.99")])]

/-- Product schema whose aggregateRating has a reviewCount but no
ratingValue. -/
def c10wds3 : List (String × PyVal) :=
  [("name", .pystr "X"), ("offers", .pydict [("price", .pystr "9.99")]),
    ("aggregateRating", .pydict [("reviewCount", .pynum 5)])]

/-- Product schema whose aggregateRating has a ratingValue but no
reviewCount. -/
def c10wds4 : List (String × PyVal) :=
  [("name", .pystr "X"), ("offers", .pydict [("price", .pystr "9.99")]),
    ("aggregateRating", .pydict [("ratingValue", .pynum 4)])]

/-! ## Claims -/

/-- The offers value reaching `offersStage` is well-typed whenever the
schema's offers entry is. -/
theorem offersValOK_getD (ds : List (String × PyVal))
    (hOff : OffersOK (dget ds "offers")) :
    OffersValOK (offersUnwrap ((dget ds "offers").getD (.pydict []))) := by
  cases hd : dget ds "offers" with
  | none =>
    simp only [Option.getD]
    intro a haa
    simp [dget] at haa
  | some v =>
    rw [hd] at hOff
    simpa [OffersOK] using hOff

/-- The separator tail of the rating regex passes the numeric group value
through unchanged. -/
theorem checkSep_some {x v : ℚ} {l : List Char} (h : checkSep x l = some v) : v = x := by
  unfold checkSep at h
  dsimp only at h
  repeat' split at h
  all_goals first
    | (injection h with h; exact h.symm)
    | exact Option.noConfusion h

/-- Values produced by one rating-regex attempt are non-negative. -/
theorem outOf5At_nonneg {whole rest : List Char} {v : ℚ}
    (h : outOf5At whole rest = some v) : 0 ≤ v := by
  have hd : (0 : ℚ) ≤ (digitsToNat whole : ℚ) := by positivity
  unfold outOf5At at h
  dsimp only at h
  split at h
  · rename_i w heq
    injection h with h
    subst h
    split at heq
    · rename_i r2
      split at heq
      · exact Option.noConfusion heq
      · have hw := checkSep_some heq
        have hfr : (0 : ℚ) ≤ fracVal (r2.takeWhile Char.isDigit) := by
          rw [fracVal]
          positivity
        rw [hw]
        exact add_nonneg hd hfr
    · exact Option.noConfusion heq
  · have hv := checkSep_some h
    rw [hv]
    exact hd

/-- Values found by the rating-regex search are non-negative. -/
theorem outOf5Search_nonneg : ∀ {l : List Char} {v : ℚ},
    outOf5Search l = some v → 0 ≤ v := by
  intro l
  induction l with
  | nil => exact fun h => Option.noConfusion h
  | cons c cs ih =>
    intro v h
    simp only [outOf5Search] at h
    split at h
    · split at h
      · rename_i w heq
        injection h with h
        subst h
        exact outOf5At_nonneg heq
      · exact ih h
    · exact ih h

/-- C9 as amended: every rating produced by `extract_rating` is
non-negative, but only the bare-numeric fallback path enforces the upper
bound 5: when the "out of 5" pattern does not match, the returned rating
lies in [0,5]; when it does match, any non-negative parsed value (possibly
exceeding 5) is returned, and the Amazon parser passes it through. (The
Walmart JSON-LD path coerces ratingValue with no range check at all.) -/
theorem c9_rating_bounds :
    (∀ t v, extract_rating t = some v → 0 ≤ v) ∧
    (∀ t v, outOf5Search (asciiLower t).toList = none → extract_rating t = some v →
      0 ≤ v ∧ v ≤ 5) ∧
    (∀ (d : AmazonDoc) (u : String) (v : ℚ), (amazonParse d u).rating = some v → 0 ≤ v) := by
  have hmain : ∀ t v, extract_rating t = some v → 0 ≤ v := by
    intro t v h
    unfold extract_rating at h
    split at h
    · exact Option.noConfusion h
    · split at h
      · rename_i w heq
        injection h with h
        subst h
        exact outOf5Search_nonneg heq
      · split at h
        · split at h
          · rename_i hb
            injection h with h
            subst h
            exact hb.1
          · exact Option.noConfusion h
        · exact Option.noConfusion h
  refine ⟨hmain, ?_, ?_⟩
  · intro t v hns h
    unfold extract_rating at h
    split at h
    · exact Option.noConfusion h
    · rw [hns] at h
      dsimp only at h
      split at h
      · split at h
        · rename_i hb
          injection h with h
          subst h
          exact hb
        · exact Option.noConfusion h
      · exact Option.noConfusion h
  · intro d u v h
    simp only [amazonParse] at h
    unfold amazonRating at h
    split at h
    · exact hmain _ _ h
    · split at h
      · exact hmain _ _ h
      · exact Option.noConfusion h

/-- C9 witness: "4 out of 5 stars" parses to 4 (non-negative); the bare
text "3" takes the fallback path and lands in [0,5]; the Amazon parser
passes the icon text's value through. -/
theorem c9_rating_bounds_witness :
    (extract_rating "4 out of 5 stars" = some 4 ∧ 0 ≤ (4 : ℚ)) ∧
    (outOf5Search (asciiLower "3").toList = none ∧ extract_rating "3" = some 3 ∧
      0 ≤ (3 : ℚ) ∧ (3 : ℚ) ≤ 5) ∧
    ((amazonParse c9wdoc "https://www.amazon.com/x").rating = some 4 ∧ 0 ≤ (4 : ℚ)) :=
  ⟨⟨by decide, c9_rating_bounds.1 "4 out of 5 stars" 4 (by decide)⟩,
    ⟨by decide, by decide, c9_rating_bounds.2.1 "3" 3 (by decide) (by decide)⟩,
    ⟨by decide, c9_rating_bounds.2.2 c9wdoc "https://www.amazon.com/x" 4 (by decide)⟩⟩

/-- A digit character is not whitespace. -/
theorem isDigit_not_ws {c : Char} (h : c.isDigit = true) : isWs c = false := by
  by_contra hw
  rw [Bool.not_eq_false, isWs, Char.isWhitespace] at hw
  simp only [Bool.or_eq_true, decide_eq_true_eq] at hw
  rcases hw with ((h1 | h1) | h1) | h1 <;> subst h1 <;> exact absurd h (by decide)

/-- `dropWhile` is the identity when no element satisfies the predicate. -/
theorem dropWhile_of_forall_false {p : Char → Bool} {l : List Char}
    (h : ∀ c ∈ l, p c = false) : l.dropWhile p = l := by
  cases l with
  | nil => rfl
  | cons c cs => simp [List.dropWhile_cons, h c (List.mem_cons_self _ _)]

/-- Stripping is the identity on whitespace-free lists. -/
theorem stripL_eq_self {l : List Char} (h : ∀ c ∈ l, isWs c = false) : stripL l = l := by
  unfold stripL
  rw [dropWhile_of_forall_false h,
    dropWhile_of_forall_false (fun c hc => h c (List.mem_reverse.mp hc)), List.reverse_reverse]

theorem takeWhile_append_of_all {p : Char → Bool} {l r : List Char}
    (h : ∀ c ∈ l, p c = true) : (l ++ r).takeWhile p = l ++ r.takeWhile p := by
  induction l with
  | nil => rfl
  | cons c cs ih =>
    have hc := h c (List.mem_cons_self _ _)
    have hrest := ih (fun x hx => h x (List.mem_cons_of_mem _ hx))
    simp [List.takeWhile_cons, hc, hrest]

theorem dropWhile_append_of_all {p : Char → Bool} {l r : List Char}
    (h : ∀ c ∈ l, p c = true) : (l ++ r).dropWhile p = r.dropWhile p := by
  induction l with
  | nil => rfl
  | cons c cs ih =>
    have hc := h c (List.mem_cons_self _ _)
    have hrest := ih (fun x hx => h x (List.mem_cons_of_mem _ hx))
    simp [List.dropWhile_cons, hc, hrest]

/-- For well-formed digit/fraction tails, the regex fraction tail computes
`fracOf`. -/
theorem matchFrac_fracOf {w : Nat} {f : List Char}
    (hf : f = [] ∨ ∃ d1 d2, d1.isDigit = true ∧ d2.isDigit = true ∧ f = ['.', d1, d2]) :
    matchFrac w f = (w : ℚ) + fracOf f := by
  rcases hf with rfl | ⟨d1, d2, h1, h2, rfl⟩
  · show (w : ℚ) = (w : ℚ) + fracOf []
    rw [show fracOf [] = 0 from rfl]
    norm_num
  · show (if d1.isDigit && d2.isDigit then
        (w : ℚ) + ((10 * (d1.toNat - 48) + (d2.toNat - 48) : Nat) : ℚ) / 100
      else (w : ℚ)) = (w : ℚ) + fracOf ['.', d1, d2]
    rw [show fracOf ['.', d1, d2] =
      ((10 * (d1.toNat - 48) + (d2.toNat - 48) : Nat) : ℚ) / 100 from rfl]
    simp [h1, h2]

/-- `priceSearch` on digits-then-fraction. -/
theorem priceSearch_digits {ds f : List Char} (hne : ds ≠ [])
    (hall : ∀ c ∈ ds, c.isDigit = true)
    (hf : f = [] ∨ ∃ d1 d2, d1.isDigit = true ∧ d2.isDigit = true ∧ f = ['.', d1, d2]) :
    priceSearch (ds ++ f) = some ((digitsToNat ds : ℚ) + fracOf f) := by
  have htake : (ds ++ f).takeWhile Char.isDigit = ds := by
    rw [takeWhile_append_of_all hall]
    rcases hf with rfl | ⟨d1, d2, _, _, rfl⟩
    · simp
    · simp [List.takeWhile_cons]
  have hdrop : (ds ++ f).dropWhile Char.isDigit = f := by
    rw [dropWhile_append_of_all hall]
    rcases hf with rfl | ⟨d1, d2, _, _, rfl⟩
    · rfl
    · simp [List.dropWhile_cons]
  cases ds with
  | nil => exact absurd rfl hne
  | cons d0 ds' =>
    have hd0 : d0.isDigit = true := hall d0 (List.mem_cons_self _ _)
    rw [List.cons_append]
    simp only [priceSearch, hd0, if_true]
    rw [← List.cons_append, htake, hdrop, matchFrac_fracOf hf]

/-- `priceSearch` after a currency symbol. -/
theorem priceSearch_sym {c : Char} {ds f : List Char}
    (hsy : c = '$' ∨ c = '£' ∨ c = '€') (hne : ds ≠ [])
    (hall : ∀ x ∈ ds, x.isDigit = true)
    (hf : f = [] ∨ ∃ d1 d2, d1.isDigit = true ∧ d2.isDigit = true ∧ f = ['.', d1, d2]) :
    priceSearch (c :: (ds ++ f)) = some ((digitsToNat ds : ℚ) + fracOf f) := by
  have htake : (ds ++ f).takeWhile Char.isDigit = ds := by
    rw [takeWhile_append_of_all hall]
    rcases hf with rfl | ⟨d1, d2, _, _, rfl⟩
    · simp
    · simp [List.takeWhile_cons]
  have hdrop : (ds ++ f).dropWhile Char.isDigit = f := by
    rw [dropWhile_append_of_all hall]
    rcases hf with rfl | ⟨d1, d2, _, _, rfl⟩
    · rfl
    · simp [List.dropWhile_cons]
  have hcd : c.isDigit = false := by
    rcases hsy with rfl | rfl | rfl <;> decide
  have hhead : (match ds ++ f with | d :: _ => d.isDigit | [] => false) = true := by
    cases ds with
    | nil => exact absurd rfl hne
    | cons d0 ds' =>
      rw [List.cons_append]
      exact hall d0 (List.mem_cons_self _ _)
  have hsy2 : (c = '$' || c = '£' || c = '€') = true := by
    rcases hsy with rfl | rfl | rfl <;> decide
  simp only [priceSearch, hcd, Bool.false_eq_true, if_false, hhead, hsy2,
    Bool.and_self, if_true]
  rw [htake, hdrop, matchFrac_fracOf hf]

/-- `priceSearch` finds nothing in a digit-free list. -/
theorem priceSearch_no_digit {l : List Char} (h : ∀ c ∈ l, c.isDigit = false) :
    priceSearch l = none := by
  induction l with
  | nil => rfl
  | cons c cs ih =>
    have hrest := ih (fun x hx => h x (List.mem_cons_of_mem _ hx))
    cases cs with
    | nil => simp [priceSearch, h c (List.mem_cons_self _ _)]
    | cons d t =>
      have hd : d.isDigit = false :=
        h d (List.mem_cons_of_mem _ (List.mem_cons_self _ _))
      simp only [priceSearch, h c (List.mem_cons_self _ _), hd, Bool.false_eq_true,
        if_false, Bool.and_false]
      simpa [priceSearch, hd] using hrest

theorem mem_dropWhile {c : Char} {p : Char → Bool} :
    ∀ {l : List Char}, c ∈ l.dropWhile p → c ∈ l := by
  intro l
  induction l with
  | nil => simp
  | cons a as ih =>
    rw [List.dropWhile_cons]
    split
    · exact fun h => List.mem_cons_of_mem _ (ih h)
    · exact id

theorem mem_stripL {c : Char} {l : List Char} (h : c ∈ stripL l) : c ∈ l := by
  unfold stripL at h
  rw [List.mem_reverse] at h
  exact mem_dropWhile (List.mem_reverse.mp (mem_dropWhile h))

/-- Digits survive the comma filter, commas do not. -/
theorem filter_comma_eq_digit {g : List Char} (h : ∀ c ∈ g, c.isDigit = true ∨ c = ',') :
    g.filter (fun c => c ≠ ',') = g.filter (fun c => c.isDigit) := by
  induction g with
  | nil => rfl
  | cons c cs ih =>
    have hrest := ih (fun x hx => h x (List.mem_cons_of_mem _ hx))
    rcases h c (List.mem_cons_self _ _) with hd | rfl
    · have hne : c ≠ ',' := by rintro rfl; exact absurd hd (by decide)
      simp [List.filter_cons, hd, hne]
      simpa using hrest
    · simp +decide [List.filter_cons]
      simpa using hrest

/-- If an element does not satisfy the predicate, `dropWhile` keeps it. -/
theorem mem_dropWhile_of_not {p : Char → Bool} {c : Char} (hc : p c = false) :
    ∀ {l : List Char}, c ∈ l → c ∈ l.dropWhile p := by
  intro l
  induction l with
  | nil => simp
  | cons a as ih =>
    intro hm
    rw [List.dropWhile_cons]
    split
    · rename_i hpa
      rcases List.mem_cons.mp hm with rfl | h2
      · rw [hc] at hpa
        exact Bool.noConfusion hpa
      · exact ih h2
    · exact hm

/-- Stripping keeps every non-whitespace character. -/
theorem mem_stripL_of_not_ws {c : Char} {l : List Char} (hc : isWs c = false)
    (h : c ∈ l) : c ∈ stripL l := by
  unfold stripL
  rw [List.mem_reverse]
  apply mem_dropWhile_of_not hc
  rw [List.mem_reverse]
  exact mem_dropWhile_of_not hc h

/-- The price search finds a value in any list containing a digit. -/
theorem priceSearch_isSome {l : List Char} (h : ∃ c ∈ l, c.isDigit = true) :
    (priceSearch l).isSome = true := by
  induction l with
  | nil =>
    rcases h with ⟨c, hc, _⟩
    cases hc
  | cons c cs ih =>
    by_cases hd : c.isDigit = true
    · simp [priceSearch, hd]
    · have hd2 : c.isDigit = false := by simpa using hd
      have hcs : ∃ x ∈ cs, x.isDigit = true := by
        rcases h with ⟨x, hx, hxd⟩
        rcases List.mem_cons.mp hx with rfl | hx2
        · exact absurd hxd hd
        · exact ⟨x, hx2, hxd⟩
      simp only [priceSearch, hd2, Bool.false_eq_true, if_false]
      split
      · rfl
      · exact ih hcs

/-- C8 as amended: inputs of the claimed symbol/digits/fraction form yield
their numeric value, and `extract_price` yields absence exactly when the
text has no digit at all — no-digit inputs yield absence, and any input
containing a digit yields a value (the search picks up the first digit run
anywhere in the text, so non-matching inputs containing digits also return
values). -/
theorem c8_extract_price_shape :
    (∀ t v, PriceShaped t v → extract_price t = some v) ∧
    (∀ t, (∀ c ∈ t.toList, c.isDigit = false) → extract_price t = none) ∧
    (∀ t, (∃ c ∈ t.toList, c.isDigit = true) → (extract_price t).isSome = true) := by
  refine ⟨?_, ?_, ?_⟩
  · rintro t v ⟨symL, g, f, hsym, hgne, hgchars, hgdig, hf, ht, hv⟩
    have hfchars : ∀ c ∈ f, c = '.' ∨ c.isDigit = true := by
      rcases hf with rfl | ⟨d1, d2, h1, h2, rfl⟩
      · simp
      · intro c hc
        simp only [List.mem_cons, List.not_mem_nil, or_false] at hc
        rcases hc with rfl | rfl | rfl
        · exact Or.inl rfl
        · exact Or.inr h1
        · exact Or.inr h2
    have hsymchars : ∀ c ∈ symL, c = '$' ∨ c = '£' ∨ c = '€' := by
      rcases hsym with rfl | rfl | rfl | rfl <;> simp
    have htne : t ≠ "" := by
      intro he
      rw [he] at ht
      rcases List.append_eq_nil.mp (List.append_eq_nil.mp ht.symm).1 with ⟨_, hg0⟩
      exact hgne hg0
    have hnws : ∀ c ∈ t.toList, isWs c = false := by
      rw [ht]
      intro c hc
      rcases List.mem_append.mp hc with hc | hcf
      · rcases List.mem_append.mp hc with hcs | hcg
        · rcases hsymchars c hcs with rfl | rfl | rfl <;> decide
        · rcases hgchars c hcg with hd | rfl
          · exact isDigit_not_ws hd
          · decide
      · rcases hfchars c hcf with rfl | hd
        · decide
        · exact isDigit_not_ws hd
    have hclean : cleanPrice t = symL ++ (g.filter (fun c => c.isDigit)) ++ f := by
      unfold cleanPrice
      rw [stripL_eq_self hnws, ht]
      rw [List.filter_append, List.filter_append, List.filter_append, List.filter_append]
      have h1 : symL.filter (fun c => c ≠ ',') = symL := by
        rw [List.filter_eq_self]
        intro a ha
        rcases hsymchars a ha with rfl | rfl | rfl <;> decide
      have h2 : f.filter (fun c => c ≠ ',') = f := by
        rw [List.filter_eq_self]
        intro a ha
        rcases hfchars a ha with rfl | hd
        · decide
        · have hne : a ≠ ',' := by rintro rfl; exact absurd hd (by decide)
          simp [hne]
      rw [h1, h2, filter_comma_eq_digit hgchars]
      have hds : ∀ c ∈ g.filter (fun c => c.isDigit), c.isDigit = true :=
        fun c hc => (List.mem_filter.mp hc).2
      have h3 : symL.filter (fun c => c ≠ ' ') = symL := by
        rw [List.filter_eq_self]
        intro a ha
        rcases hsymchars a ha with rfl | rfl | rfl <;> decide
      have h4 : (g.filter (fun c => c.isDigit)).filter (fun c => c ≠ ' ') =
          g.filter (fun c => c.isDigit) := by
        rw [List.filter_eq_self]
        intro a ha
        have hne : a ≠ ' ' := by
          rintro rfl
          exact absurd (hds _ ha) (by decide)
        simp [hne]
      have h5 : f.filter (fun c => c ≠ ' ') = f := by
        rw [List.filter_eq_self]
        intro a ha
        rcases hfchars a ha with rfl | hd
        · decide
        · have hne : a ≠ ' ' := by rintro rfl; exact absurd hd (by decide)
          simp [hne]
      rw [h3, h4, h5]
    have hdsne : g.filter (fun c => c.isDigit) ≠ [] := by
      obtain ⟨c, hcg, hcd⟩ := hgdig
      intro h0
      have : c ∈ g.filter (fun c => c.isDigit) := List.mem_filter.mpr ⟨hcg, hcd⟩
      rw [h0] at this
      cases this
    have hdsall : ∀ c ∈ g.filter (fun c => c.isDigit), c.isDigit = true :=
      fun c hc => (List.mem_filter.mp hc).2
    rw [extract_price, if_neg htne, hclean, hv]
    rcases hsym with rfl | rfl | rfl | rfl
    · rw [List.nil_append]
      exact priceSearch_digits hdsne hdsall hf
    · rw [List.append_assoc, List.singleton_append]
      exact priceSearch_sym (Or.inl rfl) hdsne hdsall hf
    · rw [List.append_assoc, List.singleton_append]
      exact priceSearch_sym (Or.inr (Or.inl rfl)) hdsne hdsall hf
    · rw [List.append_assoc, List.singleton_append]
      exact priceSearch_sym (Or.inr (Or.inr rfl)) hdsne hdsall hf
  · intro t h
    by_cases ht : t = ""
    · rw [extract_price, if_pos ht]
    · rw [extract_price, if_neg ht]
      apply priceSearch_no_digit
      intro c hc
      unfold cleanPrice at hc
      exact h c (mem_stripL (List.mem_filter.mp (List.mem_filter.mp hc).1).1)
  · intro t h
    have htne : t ≠ "" := by
      rintro rfl
      rcases h with ⟨c, hc, _⟩
      exact absurd hc (by simp)
    rw [extract_price, if_neg htne]
    apply priceSearch_isSome
    rcases h with ⟨c, hc, hcd⟩
    refine ⟨c, ?_, hcd⟩
    unfold cleanPrice
    apply List.mem_filter.mpr
    refine ⟨List.mem_filter.mpr ⟨mem_stripL_of_not_ws (isDigit_not_ws hcd) hc, ?_⟩, ?_⟩
    · have hne : c ≠ ',' := by rintro rfl; exact absurd hcd (by decide)
      simp [hne]
    · have hne : c ≠ ' ' := by rintro rfl; exact absurd hcd (by decide)
      simp [hne]

/-- C8 witness: `"$1,234.56"` is price-shaped with value 1234.56 and parses
to it; `"abc"` has no digits and yields absence; `"price 34"` contains a
digit and yields a value. -/
theorem c8_extract_price_shape_witness :
    extract_price "$1,234.56" = some ((30864 : ℚ)/25) ∧ extract_price "abc" = none ∧
    (extract_price "price 34").isSome = true := by
  refine ⟨?_, ?_, ?_⟩
  · have hshape : PriceShaped "$1,234.56" ((30864 : ℚ)/25) := by
      refine ⟨['$'], ['1', ',', '2', '3', '4'], ['.', '5', '6'],
        Or.inr (Or.inl rfl), by decide, by decide,
        ⟨'1', by decide, by decide⟩,
        Or.inr ⟨'5', '6', by decide, by decide, rfl⟩, by decide, ?_⟩
      have h1 : (digitsToNat (['1', ',', '2', '3', '4'].filter (fun c => c.isDigit)) : ℕ) =
          1234 := by decide
      rw [h1, fracOf, show ('5'.toNat - 48 : ℕ) = 5 from by decide,
        show ('6'.toNat - 48 : ℕ) = 6 from by decide]
      norm_num
    exact c8_extract_price_shape.1 _ _ hshape
  · exact c8_extract_price_shape.2.1 "abc" (by decide)
  · exact c8_extract_price_shape.2.2 "price 34" ⟨'3', by decide, by decide⟩

/-- C7 as amended: the whole/fraction pair is the first candidate and falls
through to the rest on `float` failure; but among the remaining candidates
(core price block, the two legacy ids, the kindle id) the first one whose
element is present decides the result — its `extract_price` value is
returned directly, even if parsing fails, without trying later candidates
(whatever they hold). -/
theorem c7_price_order :
    (∀ (d : AmazonDoc) (t : String) (v : ℚ),
      d.aPriceWhole = some t →
      pyFloat ((removeChar '.' (removeChar ',' t)) ++ "." ++ d.aPriceFraction.getD "00") =
        some v →
      amazonPrice d = some v) ∧
    (∀ (d : AmazonDoc) (s : String),
      WholeFracFails d → d.corePriceOffscreen = some (some s) →
      amazonPrice d = extract_price s) ∧
    (∀ (d : AmazonDoc) (s : String),
      WholeFracFails d → CoreAbsent d → d.priceblockOurprice = some s →
      amazonPrice d = extract_price s) ∧
    (∀ (d : AmazonDoc) (s : String),
      WholeFracFails d → CoreAbsent d → d.priceblockOurprice = none →
      d.priceblockDealprice = some s →
      amazonPrice d = extract_price s) ∧
    (∀ (d : AmazonDoc) (s : String),
      WholeFracFails d → CoreAbsent d → d.priceblockOurprice = none →
      d.priceblockDealprice = none → d.kindlePrice = some s →
      amazonPrice d = extract_price s) := by
  refine ⟨?_, ?_, ?_, ?_, ?_⟩
  · intro d t v h1 h2
    simp [amazonPrice, h1, h2]
  · intro d s hfail hcore
    rcases hfail with h | ⟨t, ht, hfl⟩
    · simp [amazonPrice, h, hcore]
    · simp [amazonPrice, ht, hfl, hcore]
  · intro d s hfail hca hop
    rcases hfail with h | ⟨t, ht, hfl⟩ <;> rcases hca with hc | hc <;>
      simp_all [amazonPrice]
  · intro d s hfail hca hop hdp
    rcases hfail with h | ⟨t, ht, hfl⟩ <;> rcases hca with hc | hc <;>
      simp_all [amazonPrice]
  · intro d s hfail hca hop hdp hk
    rcases hfail with h | ⟨t, ht, hfl⟩ <;> rcases hca with hc | hc <;>
      simp_all [amazonPrice]

/-- C7 witness: "5" with missing fraction parses as 5.00 and wins; with no
pair, the present core price "$9" decides even though "$7" is also
present; a present-but-unparsable first legacy block suppresses the
parsable deal block behind it; the deal and kindle blocks decide when they
are the first present element. -/
theorem c7_price_order_witness :
    (c7wdoc1.aPriceWhole = some "5" ∧ amazonPrice c7wdoc1 = some 5) ∧
    (c7wdoc2.aPriceWhole = none ∧ c7wdoc2.corePriceOffscreen = some (some "$9") ∧
      c7wdoc2.priceblockOurprice = some "$7" ∧
      amazonPrice c7wdoc2 = extract_price "$9" ∧ extract_price "$9" = some 9) ∧
    (c7wdoc3.priceblockOurprice = some "abc" ∧ c7wdoc3.priceblockDealprice = some "$8" ∧
      amazonPrice c7wdoc3 = extract_price "abc" ∧ extract_price "abc" = none) ∧
    (amazonPrice c7wdoc4 = extract_price "$8" ∧ extract_price "$8" = some 8) ∧
    (amazonPrice c7wdoc5 = extract_price "$3" ∧ extract_price "$3" = some 3) := by
  have hd0 : (digitsToNat ['0', '0'] : ℚ) = 0 := by decide
  have hpf : pyFloat ((removeChar '.' (removeChar ',' "5")) ++ "." ++
      (c7wdoc1.aPriceFraction.getD "00")) = some 5 := by
    have h : pyFloat ((removeChar '.' (removeChar ',' "5")) ++ "." ++
        (c7wdoc1.aPriceFraction.getD "00")) =
        some ((digitsToNat ['5'] : ℚ) + fracVal ['0', '0']) := rfl
    rw [h, fracVal, hd0]
    norm_num
    decide
  refine ⟨⟨rfl, c7_price_order.1 c7wdoc1 "5" 5 rfl hpf⟩,
    ⟨rfl, rfl, rfl, c7_price_order.2.1 c7wdoc2 "$9" (Or.inl rfl) rfl, by decide⟩,
    ⟨rfl, rfl,
      c7_price_order.2.2.1 c7wdoc3 "abc" (Or.inl rfl) (Or.inr rfl) rfl, by decide⟩,
    ⟨c7_price_order.2.2.2.1 c7wdoc4 "$8" (Or.inl rfl) (Or.inl rfl) rfl rfl, by decide⟩,
    c7_price_order.2.2.2.2 c7wdoc5 "$3" (Or.inl rfl) (Or.inl rfl) rfl rfl rfl, by decide⟩

/-- A well-typed (dict-or-falsy) offers value makes the price/currency/
stock stage return without raising. -/
theorem offersStage_ok (w : PyVal) (hw : OffersValOK w) :
    ∃ out, offersStage w = .ok out := by
  by_cases ht : pyTruthy w = true
  · cases w with
    | pydict okvs =>
      unfold offersStage
      rw [ht]
      simp only [if_true, pyGet]
      cases ha : dget okvs "availability" with
      | none => simp [ha, availInStock]
      | some a =>
        obtain ⟨s, rfl⟩ := hw a ha
        simp [ha, availInStock]
    | pynone => simp [OffersValOK] at hw; simp [hw] at ht
    | pybool b => simp [OffersValOK] at hw; simp [hw] at ht
    | pynum q => simp [OffersValOK] at hw; simp [hw] at ht
    | pystr s => simp [OffersValOK] at hw; simp [hw] at ht
    | pylist xs => simp [OffersValOK] at hw; simp [hw] at ht
  · unfold offersStage
    simp [ht]

/-- A well-typed (dict-or-falsy) aggregateRating value makes the rating
stage return without raising. -/
theorem aggStage_ok (v : PyVal) (hv : (∃ kvs, v = .pydict kvs) ∨ pyTruthy v = false) :
    ∃ out, aggStage v = .ok out := by
  by_cases ht : pyTruthy v = true
  · rcases hv with ⟨kvs, rfl⟩ | hf
    · unfold aggStage
      rw [ht]
      simp [pyGet]
    · rw [hf] at ht
      cases ht
  · unfold aggStage
    simp [ht]

/-- A well-typed Product object parses without raising. -/
theorem parse_from_json_ok (kvs : List (String × PyVal)) (seller : Option String)
    (hp : ProductOK kvs) :
    ∃ r, parse_from_json (.pydict kvs) seller = .ok r := by
  obtain ⟨ho, ha⟩ := hp
  have hOs : OffersValOK (offersUnwrap ((dget kvs "offers").getD (.pydict []))) :=
    offersValOK_getD kvs ho
  have hAg : (∃ akvs, ((dget kvs "aggregateRating").getD (.pydict [])) = .pydict akvs) ∨
      pyTruthy ((dget kvs "aggregateRating").getD (.pydict [])) = false := by
    cases hd : dget kvs "aggregateRating" with
    | none => exact Or.inl ⟨[], rfl⟩
    | some v =>
      rw [hd] at ha
      simpa [AggOK] using ha
  obtain ⟨out, hout⟩ := offersStage_ok _ hOs
  obtain ⟨⟨p, cur, ins⟩, rfl⟩ : ∃ o, out = o := ⟨out, rfl⟩
  obtain ⟨aout, haout⟩ := aggStage_ok _ hAg
  obtain ⟨⟨rat, rev⟩, rfl⟩ : ∃ o, aout = o := ⟨aout, rfl⟩
  unfold parse_from_json
  simp only [pyGet, hout, haout]
  exact ⟨_, rfl⟩

/-- Under well-typed blocks, `_extract_json_ld` returns either no schema or
a well-typed Product object. -/
theorem extract_json_ld_ok (blocks : List (Except Unit PyVal))
    (hb : ∀ b ∈ blocks, BlockOK b) :
    extract_json_ld blocks = .ok none ∨
      ∃ kvs, extract_json_ld blocks = .ok (some (.pydict kvs)) ∧ ProductOK kvs := by
  induction blocks with
  | nil => exact Or.inl rfl
  | cons b rest ih =>
    have hbr : ∀ x ∈ rest, BlockOK x := fun x hx => hb x (List.mem_cons_of_mem _ hx)
    cases b with
    | error e => simpa [extract_json_ld] using ih hbr
    | ok v =>
      obtain ⟨kvs, rfl, hpk⟩ := hb (.ok v) (List.mem_cons_self _ _)
      by_cases hT : typeIsProduct ((dget kvs "@type").getD .pynone) = true
      · exact Or.inr ⟨kvs, by simp [extract_json_ld, hT], hpk⟩
      · simpa [extract_json_ld, hT] using ih hbr

/-- C5 as amended: the Walmart parser returns a well-formed result (never
raises) whenever every JSON-LD block is well-typed — a decode failure, or
an object whose offers/availability/aggregateRating entries have the
expected types; and any exception a parser does raise is caught by scrape
and wrapped as a Failed result with a "Parse error: …" message. (The
Amazon parser has no raising operation: its embedding `amazonParse` is a
total function.) -/
theorem c5_parse_totality :
    (∀ d : WalmartDoc, (∀ b ∈ d.jsonLdBlocks, BlockOK b) → ∃ r, walmartParse d = .ok r) ∧
    (∀ (env : ScrapeEnv) (html : String) (hs : Nat) (err0 : Option String) (e : String),
      fetched env = (some html, hs, err0) → env.parse html = .error e →
      scrape env = { success := false, platform := env.platform, status := .failed,
                     error_message := some ("Parse error: " ++ e),
                     http_status_code := some hs,
                     response_time_ms := env.responseTimeMs }) := by
  constructor
  · intro d hblocks
    rcases extract_json_ld_ok d.jsonLdBlocks hblocks with h | ⟨kvs, h, hpk⟩
    · rw [walmartParse, h]
      exact ⟨_, rfl⟩
    · rw [walmartParse, h]
      exact parse_from_json_ok kvs _ hpk
  · intro env html hs err0 e hfe hparse
    simp only [scrape, hfe, hparse]

/-- C5 witness: a well-typed Product schema parses (first part), and with a
raising parser scrape reports `Parse error: boom` (second part). -/
theorem c5_parse_totality_witness :
    ((∀ b ∈ (wdocOf [.ok (.pydict c5data)]).jsonLdBlocks, BlockOK b) ∧
      (∃ r, walmartParse (wdocOf [.ok (.pydict c5data)]) = .ok r)) ∧
    (fetched c5wenv = (some "page", 200, none) ∧ c5wenv.parse "page" = .error "boom" ∧
      scrape c5wenv = { success := false, platform := Platform.walmart,
                        status := .failed,
                        error_message := some ("Parse error: " ++ "boom"),
                        http_status_code := some 200, response_time_ms := 9 }) := by
  have hB : ∀ b ∈ (wdocOf [.ok (.pydict c5data)]).jsonLdBlocks, BlockOK b := by
    intro b hbm
    simp [wdocOf] at hbm
    subst hbm
    refine ⟨c5data, rfl, ?_, ?_⟩
    · show OffersValOK (offersUnwrap ((dget c5data "offers").getD (.pydict [])))
      intro a haa
      injection haa with h
      exact ⟨_, h.symm⟩
    · show AggOK (dget c5data "aggregateRating")
      have : dget c5data "aggregateRating" = none := rfl
      rw [this]
      trivial
  refine ⟨⟨hB, c5_parse_totality.1 _ hB⟩, by decide, rfl, ?_⟩
  exact c5_parse_totality.2 c5wenv "page" 200 none "boom" (by decide) rfl

/-- `_parse_from_json` results satisfy the success invariant. -/
theorem parse_from_json_inv (data : PyVal) (seller : Option String) (r : ScrapeResult)
    (h : parse_from_json data seller = .ok r) : SuccessInv r := by
  unfold parse_from_json at h
  repeat' split at h
  all_goals try exact Except.noConfusion h
  all_goals
    injection h with h
    subst h
    intro hsucc
    simp only at hsucc ⊢
    rw [Bool.and_eq_true] at hsucc
    obtain ⟨h1, h2⟩ := hsucc
    simp [h1, h2]

/-- `_parse_from_html` results satisfy the success invariant. -/
theorem parse_from_html_inv (d : WalmartDoc) : SuccessInv (parse_from_html d) := by
  intro hsucc
  simp only [parse_from_html] at hsucc ⊢
  rw [Bool.and_eq_true] at hsucc
  obtain ⟨h1, h2⟩ := hsucc
  simp [h1, h2]

/-- C3 as amended: for every result produced by the Amazon parser, the
Walmart parser, or scrape (given a parser maintaining it), `success = true`
implies `status = Success`, a present name and a present price. -/
theorem c3_success_invariant :
    (∀ d url, SuccessInv (amazonParse d url)) ∧
    (∀ d r, walmartParse d = .ok r → SuccessInv r) ∧
    (∀ env, (∀ s r, env.parse s = .ok r → SuccessInv r) → SuccessInv (scrape env)) := by
  refine ⟨?_, ?_, ?_⟩
  · intro d url hsucc
    simp only [amazonParse] at hsucc ⊢
    rw [Bool.and_eq_true] at hsucc
    obtain ⟨h1, h2⟩ := hsucc
    simp [h1, h2]
  · intro d r h
    unfold walmartParse at h
    split at h
    · exact absurd h (by simp)
    · exact parse_from_json_inv _ _ _ h
    · injection h with h
      subst h
      exact parse_from_html_inv d
  · intro env hp
    unfold scrape
    split
    · intro hsucc
      simp at hsucc
    · split
      · rename_i html hs x r hparse
        intro hsucc
        simp only at hsucc ⊢
        exact ⟨(hp _ _ hparse hsucc).1, (hp _ _ hparse hsucc).2.1, (hp _ _ hparse hsucc).2.2⟩
      · intro hsucc
        simp at hsucc

/-- C3 witness, exercising both hypotheses non-vacuously: the well-typed
Walmart Product schema `c5data` parses with `success = true`, and the
invariant instance obtained from the theorem yields status Success with
name and price present; likewise `scrape` over a parser that returns the
successful `c3wres`. -/
theorem c3_success_invariant_witness :
    ((walmartParse (wdocOf [.ok (.pydict c5data)])).toOption.map (fun r => r.success) =
        some true ∧
      (walmartParse (wdocOf [.ok (.pydict c5data)])).toOption.map
        (fun r => (r.status, r.name.isSome, r.current_price.isSome)) =
        some (ScrapeStatus.success, true, true)) ∧
    ((scrape c3wenv).success = true ∧ (scrape c3wenv).status = ScrapeStatus.success ∧
      (scrape c3wenv).name.isSome = true ∧ (scrape c3wenv).current_price.isSome = true) := by
  constructor
  · refine ⟨by decide, ?_⟩
    cases hmk : walmartParse (wdocOf [.ok (.pydict c5data)]) with
    | error e =>
      have h1 : (walmartParse (wdocOf [.ok (.pydict c5data)])).toOption.map
          (fun r => r.success) = some true := by decide
      rw [hmk] at h1
      exact absurd h1 (by simp [Except.toOption])
    | ok r =>
      have h1 : (walmartParse (wdocOf [.ok (.pydict c5data)])).toOption.map
          (fun r => r.success) = some true := by decide
      rw [hmk] at h1
      simp only [Except.toOption] at h1
      simp at h1
      have hinv := c3_success_invariant.2.1 _ r hmk h1
      simp [Except.toOption, hinv.1, hinv.2.1, hinv.2.2]
  · have hp : ∀ s r, c3wenv.parse s = .ok r → SuccessInv r := by
      intro s r h
      injection h with h
      subst h
      intro _
      exact ⟨rfl, rfl, rfl⟩
    have hs : (scrape c3wenv).success = true := by decide
    have hinv := c3_success_invariant.2.2 c3wenv hp hs
    exact ⟨hs, hinv.1, hinv.2.1, hinv.2.2⟩

/-- C1, counterexample: the primary fetch ends blocked (all attempts 403),
the fallback is invoked and fails (no token configured), yet the final
status is Failed, not Blocked — the fallback overwrote `http_status` with
its own status 0. -/
theorem c1_counterexample :
    (primaryResult c1env).content = none ∧ (primaryResult c1env).httpStatus = 403 ∧
    usesFallback c1env = true ∧
    (fetch_with_web_unlocker c1env.tokenConfigured c1env.unlocker).1 = none ∧
    (scrape c1env).status = ScrapeStatus.failed ∧
    (scrape c1env).status ≠ ScrapeStatus.blocked := by
  decide

/-- C5, counterexample: a Walmart page whose single JSON-LD script decodes
to the empty array makes `parse` raise (`[].get` after the Product scan),
contradicting "never raises". -/
theorem c5_counterexample :
    walmartParse (wdocOf [.ok (.pylist [])]) = .error "object has no attribute get" := rfl

/-- C6: `detect_platform` classifies an amazon.co.jp URL as Unknown (the
regex lists `jp`, not `co\.jp`), while the sibling currency mapper — and
the spec — treat amazon.co.jp as Amazon Japan (JPY). -/
theorem c6_code_bug_eval :
    detect_platform "https://www.amazon.co.jp/dp/b0test" = Platform.unknown ∧
    detect_currency "https://www.amazon.co.jp/dp/b0test" = "JPY" ∧
    detect_platform "https://www.amazon.com/dp/b0test" = Platform.amazon := by
  exact ⟨rfl, rfl, rfl⟩

/-- C3, counterexample: a Product schema with `name: ""` and
`price: "-1"` parses with `success = true`, `status = Success`, an empty
name and a negative price. -/
theorem c3_counterexample :
    (walmartParse (wdocOf [.ok c3data])).toOption.map
        (fun r => (r.success, r.current_price, r.status)) =
      some (true, some (-1 : ℚ), ScrapeStatus.success) ∧
    (walmartParse (wdocOf [.ok c3data])).toOption.map (fun r => r.name) =
      some (some (PyVal.pystr "")) ∧
    (-1 : ℚ) < 0 := by
  refine ⟨by decide, rfl, by norm_num⟩

/-- C7, counterexample: the core price block is present but unparsable and
a later legacy block is parsable, yet `_extract_price` returns `None`:
candidates after the whole/fraction pair do not fall through on parse
failure. -/
theorem c7_counterexample :
    amazonPrice c7doc = none ∧ c7doc.corePriceOffscreen = some (some "abc") ∧
    c7doc.priceblockOurprice = some "$5" ∧ extract_price "$5" = some 5 := by
  decide

/-- C8, counterexample: `"price 34"` is not of the claimed
symbol-digits-fraction form, yet `extract_price` returns 34 rather than
absence — the regex searches anywhere in the text. -/
theorem c8_counterexample : extract_price "price 34" = some 34 := by decide

/-- C9, counterexample: the text `"9.9 out of 5 stars"` yields a parsed
rating of 9.9, outside [0,5] — the "out of 5" path has no range check. -/
theorem c9_counterexample :
    (amazonParse c9doc "https://www.amazon.com/x").rating = some ((99 : ℚ)/10) ∧
    ¬ ((99 : ℚ)/10 ≤ 5) := by
  constructor
  · have e1 : (digitsToNat [Char.ofNat 57] : ℕ) = 9 := by decide
    have h2 : (amazonParse c9doc "https://www.amazon.com/x").rating
        = some ((digitsToNat [Char.ofNat 57] : ℚ) + fracVal [Char.ofNat 57]) := rfl
    rw [h2]
    simp only [Option.some.injEq]
    rw [fracVal, e1]
    norm_num
  · norm_num

/-- C10, counterexample: an aggregateRating object that is present but
empty is falsy, so rating/review_count stay absent rather than defaulting
to 0. -/
theorem c10_counterexample :
    (walmartParse (wdocOf [.ok c10data])).toOption.map
        (fun r => (r.rating, r.review_count)) =
      some ((none : Option ℚ), (none : Option Int)) := by
  decide

/-- C4: when every attempt returns 404, the retry pipeline makes exactly
one network call, performs no backoff sleep, returns no content with the
not-found error and status 404, and scrape does not invoke the fallback. -/
theorem c4_404_single_call (env : ScrapeEnv) (hr : 0 < env.retryCount)
    (h404 : ∀ k, ∃ b, env.outcomes k = FetchOutcome.response 404 b) :
    (primaryResult env).calls = 1 ∧ (primaryResult env).backoffSleeps = 0 ∧
    (primaryResult env).content = none ∧
    (primaryResult env).error = some "Product not found" ∧
    (primaryResult env).httpStatus = 404 ∧ usesFallback env = false := by
  obtain ⟨b, hb⟩ := h404 0
  obtain ⟨n, hn⟩ : ∃ n, env.retryCount = n + 1 := ⟨env.retryCount - 1, by omega⟩
  have hp : primaryResult env = ⟨none, 404, some (httpErrMsg 404), 1, 0⟩ := by
    unfold primaryResult fetch_with_retry
    rw [hn]
    show fetchRetryAux env.outcomes (n + 1) (n + 1) 0 none 0 0 = _
    simp [fetchRetryAux, Nat.sub_self, hb]
  rw [hp]
  refine ⟨rfl, rfl, rfl, by simp [httpErrMsg], rfl, ?_⟩
  simp [usesFallback, hp]

/-- C4 witness: three configured retries, a transport always replying
404. -/
theorem c4_404_single_call_witness :
    (0 < c4env.retryCount ∧ ∀ k, ∃ b, c4env.outcomes k = FetchOutcome.response 404 b) ∧
    (primaryResult c4env).calls = 1 ∧ (primaryResult c4env).backoffSleeps = 0 ∧
    (primaryResult c4env).content = none ∧
    (primaryResult c4env).error = some "Product not found" ∧
    (primaryResult c4env).httpStatus = 404 ∧ usesFallback c4env = false :=
  ⟨⟨by decide, fun _ => ⟨"nf", rfl⟩⟩,
    c4_404_single_call c4env (by decide) (fun _ => ⟨"nf", rfl⟩)⟩

/-- Reachability: when both strategies end without content and the final
HTTP status is a block status (403/503), the accumulated error text cannot
mention "timeout". -/
theorem fetched_block_no_timeout (env : ScrapeEnv)
    (h1 : (fetched env).1 = none)
    (h2 : (fetched env).2.1 = 403 ∨ (fetched env).2.1 = 503) :
    timeoutText (fetched env).2.2 = false := by
  by_cases hf : usesFallback env = true
  · have he : fetched env = fetch_with_web_unlocker env.tokenConfigured env.unlocker := by
      simp [fetched, hf]
    rw [he] at h1 h2 ⊢
    cases htok : env.tokenConfigured with
    | false => simp [fetch_with_web_unlocker, htok] at h2
    | true =>
      cases hu : env.unlocker with
      | response st body =>
        by_cases h200 : st = 200
        · simp [fetch_with_web_unlocker, htok, hu, h200] at h1
        · simp only [fetch_with_web_unlocker, htok, hu, h200] at h1 h2 ⊢
          simp at h2 ⊢
          rcases h2 with h | h <;> subst h <;> decide
      | exn m => simp [fetch_with_web_unlocker, htok, hu] at h2
  · have he : fetched env =
        ((primaryResult env).content, (primaryResult env).httpStatus, (primaryResult env).error) := by
      simp [fetched, hf]
    rw [he] at h1 h2
    simp only at h1 h2
    exfalso
    apply hf
    rcases h2 with h | h <;> simp [usesFallback, h1, h]

/-- C2: on the no-content path, the status computed by `scrape` agrees with
the spec's classification order (timeout text first, then 403/503, then
failed) on every reachable input. -/
theorem c2_failure_status_matches_spec_order (env : ScrapeEnv)
    (h : (fetched env).1 = none) :
    (scrape env).status = specFinalStatus (fetched env).2.2 (fetched env).2.1 := by
  have hnt := fetched_block_no_timeout env h
  rcases hfe : fetched env with ⟨c, hs, err⟩
  rw [hfe] at h hnt
  simp only at h
  subst h
  simp only [scrape, hfe, specFinalStatus]
  by_cases hb : hs = 403 ∨ hs = 503
  · have : timeoutText err = false := hnt hb
    rcases hb with h | h <;> subst h <;> simp [this]
  · have h403 : ¬ hs = 403 := fun h => hb (Or.inl h)
    have h503 : ¬ hs = 503 := fun h => hb (Or.inr h)
    simp [h403, h503]

/-- C2 witness: all attempts time out (status 0), the fallback has no
token; the classification (spec order and code) is Failed. -/
theorem c2_failure_status_witness :
    (fetched c2env).1 = none ∧
    (scrape c2env).status = specFinalStatus (fetched c2env).2.2 (fetched c2env).2.1 ∧
    (scrape c2env).status = ScrapeStatus.failed :=
  ⟨by decide, c2_failure_status_matches_spec_order c2env (by decide), by decide⟩

/-- C1 as amended: if the primary fetch ends with no content after a block
status (403/503) and the invoked fallback also returns no content, the
final status is Blocked exactly when the fallback's own reported HTTP
status is 403 or 503. -/
theorem c1_fallback_status_decides_blocked (env : ScrapeEnv)
    (h1 : (primaryResult env).content = none)
    (h2 : (primaryResult env).httpStatus = 403 ∨ (primaryResult env).httpStatus = 503)
    (h3 : (fetch_with_web_unlocker env.tokenConfigured env.unlocker).1 = none) :
    ((scrape env).status = ScrapeStatus.blocked ↔
      ((fetch_with_web_unlocker env.tokenConfigured env.unlocker).2.1 = 403 ∨
        (fetch_with_web_unlocker env.tokenConfigured env.unlocker).2.1 = 503)) := by
  have hf : usesFallback env = true := by
    rcases h2 with h | h <;> simp [usesFallback, h1, h]
  have he : fetched env = fetch_with_web_unlocker env.tokenConfigured env.unlocker := by
    simp [fetched, hf]
  rcases hu : fetch_with_web_unlocker env.tokenConfigured env.unlocker with ⟨c, hs, err⟩
  rw [hu] at he h3
  simp only at h3
  subst h3
  simp only [scrape, he]
  by_cases hb : hs = 403 ∨ hs = 503
  · rcases hb with h | h <;> subst h <;> simp
  · have h403 : ¬ hs = 403 := fun h => hb (Or.inl h)
    have h503 : ¬ hs = 503 := fun h => hb (Or.inr h)
    simp only [h403, h503]
    simp [h403, h503]
    split <;> simp

/-- C1 witness: primary blocked with 403, fallback invoked and failing with
HTTP 500; the status is therefore not Blocked (it is Failed). -/
theorem c1_fallback_status_decides_blocked_witness :
    ((primaryResult c1envB).content = none ∧ (primaryResult c1envB).httpStatus = 403 ∧
      (fetch_with_web_unlocker c1envB.tokenConfigured c1envB.unlocker).1 = none) ∧
    (scrape c1envB).status = ScrapeStatus.failed := by
  refine ⟨⟨by decide, by decide, by decide⟩, ?_⟩
  have h := c1_fallback_status_decides_blocked c1envB (by decide) (Or.inl (by decide)) (by decide)
  have h500 : ¬ ((fetch_with_web_unlocker c1envB.tokenConfigured c1envB.unlocker).2.1 = 403 ∨
      (fetch_with_web_unlocker c1envB.tokenConfigured c1envB.unlocker).2.1 = 503) := by decide
  have hnb : ¬ (scrape c1envB).status = ScrapeStatus.blocked := fun hb => h500 (h.mp hb)
  revert hnb
  decide

/-- C10 as amended: when a Product schema has a NON-EMPTY aggregateRating
object, a missing ratingValue field makes the JSON-path parser report
rating 0.0, and a missing reviewCount field makes it report review_count 0
— each field independently of the other; when the aggregateRating object
is absent, both fields are absent. (A present-but-empty aggregateRating
object is falsy in Python and also leaves both fields absent, which is
what the counterexample shows.) -/
theorem c10_aggregate_defaults (ds kvs : List (String × PyVal)) (seller : Option String)
    (hOff : OffersOK (dget ds "offers")) :
    ((dget ds "aggregateRating" = some (.pydict kvs) ∧ kvs ≠ [] ∧
      dget kvs "ratingValue" = none) →
      (parse_from_json (.pydict ds) seller).map (fun r => r.rating) = .ok (some 0)) ∧
    ((dget ds "aggregateRating" = some (.pydict kvs) ∧ kvs ≠ [] ∧
      dget kvs "reviewCount" = none) →
      (parse_from_json (.pydict ds) seller).map (fun r => r.review_count) =
        .ok (some 0)) ∧
    (dget ds "aggregateRating" = none →
      (parse_from_json (.pydict ds) seller).map (fun r => (r.rating, r.review_count)) =
        .ok (none, none)) := by
  obtain ⟨⟨p, cur, ins⟩, hout⟩ :=
    offersStage_ok (offersUnwrap ((dget ds "offers").getD (.pydict [])))
      (offersValOK_getD ds hOff)
  refine ⟨?_, ?_, ?_⟩
  · rintro ⟨hA, hne, hrv⟩
    have hAgg : aggStage ((dget ds "aggregateRating").getD (.pydict [])) =
        .ok (some 0, pyIntOf ((dget kvs "reviewCount").getD (.pynum 0))) := by
      rw [hA]
      show aggStage (.pydict kvs) = _
      unfold aggStage
      have ht : pyTruthy (.pydict kvs) = true := by
        simp [pyTruthy, hne]
      rw [ht]
      simp only [if_true, pyGet, hrv]
      simp [pyFloatOf]
    unfold parse_from_json
    simp only [pyGet, hout, hAgg]
    rfl
  · rintro ⟨hA, hne, hrc⟩
    have hAgg : aggStage ((dget ds "aggregateRating").getD (.pydict [])) =
        .ok (pyFloatOf ((dget kvs "ratingValue").getD (.pynum 0)), some 0) := by
      rw [hA]
      show aggStage (.pydict kvs) = _
      unfold aggStage
      have ht : pyTruthy (.pydict kvs) = true := by
        simp [pyTruthy, hne]
      rw [ht]
      simp only [if_true, pyGet, hrc]
      simp [pyIntOf, ratTrunc]
    unfold parse_from_json
    simp only [pyGet, hout, hAgg]
    rfl
  · intro hB
    have hAgg : aggStage ((dget ds "aggregateRating").getD (.pydict [])) =
        .ok (none, none) := by
      rw [hB]
      show aggStage (.pydict []) = .ok (none, none)
      unfold aggStage
      simp [pyTruthy]
    unfold parse_from_json
    simp only [pyGet, hout, hAgg]
    rfl

/-- C10 witness: a non-empty aggregateRating with a reviewCount but no
ratingValue defaults the rating alone; one with a ratingValue but no
reviewCount defaults the review count alone; one with neither defaults
both; an absent aggregateRating yields (absent, absent). -/
theorem c10_aggregate_defaults_witness :
    (dget c10wds3 "aggregateRating" = some (.pydict [("reviewCount", .pynum 5)]) ∧
      (parse_from_json (.pydict c10wds3) none).map (fun r => r.rating) = .ok (some 0)) ∧
    (dget c10wds4 "aggregateRating" = some (.pydict [("ratingValue", .pynum 4)]) ∧
      (parse_from_json (.pydict c10wds4) none).map (fun r => r.review_count) =
        .ok (some 0)) ∧
    ((parse_from_json (.pydict c10wds1) none).map (fun r => r.rating) = .ok (some 0) ∧
      (parse_from_json (.pydict c10wds1) none).map (fun r => r.review_count) =
        .ok (some 0)) ∧
    (dget c10wds2 "aggregateRating" = none ∧
      (parse_from_json (.pydict c10wds2) none).map
        (fun r => (r.rating, r.review_count)) = .ok (none, none)) := by
  have hOff1 : OffersOK (dget c10wds1 "offers") := by
    show OffersValOK (offersUnwrap (.pydict [("price", .pystr "9.99")]))
    intro a haa
    exact Option.noConfusion haa
  have hOff2 : OffersOK (dget c10wds2 "offers") := by
    show OffersValOK (offersUnwrap (.pydict [("price", .pystr "9.99")]))
    intro a haa
    exact Option.noConfusion haa
  have hOff3 : OffersOK (dget c10wds3 "offers") := by
    show OffersValOK (offersUnwrap (.pydict [("price", .pystr "9.99")]))
    intro a haa
    exact Option.noConfusion haa
  have hOff4 : OffersOK (dget c10wds4 "offers") := by
    show OffersValOK (offersUnwrap (.pydict [("price", .pystr "9.99")]))
    intro a haa
    exact Option.noConfusion haa
  refine ⟨⟨rfl, ?_⟩, ⟨rfl, ?_⟩, ⟨?_, ?_⟩, rfl, ?_⟩
  · exact (c10_aggregate_defaults c10wds3 [("reviewCount", .pynum 5)] none hOff3).1
      ⟨rfl, List.cons_ne_nil _ _, rfl⟩
  · exact (c10_aggregate_defaults c10wds4 [("ratingValue", .pynum 4)] none hOff4).2.1
      ⟨rfl, List.cons_ne_nil _ _, rfl⟩
  · exact (c10_aggregate_defaults c10wds1 [("worstRating", .pynum 1)] none hOff1).1
      ⟨rfl, List.cons_ne_nil _ _, rfl⟩
  · exact (c10_aggregate_defaults c10wds1 [("worstRating", .pynum 1)] none hOff1).2.1
      ⟨rfl, List.cons_ne_nil _ _, rfl⟩
  · exact (c10_aggregate_defaults c10wds2 [] none hOff2).2.2 rfl

end Pricewatch
